import Mathlib

/-! # A shallow embedding of the simple file system (`sfs.c`, `sfs.h`)

The block device is a map from block numbers to 512-byte buffers.  On-disk
records (`inode`, `file_entry`) are overlaid on raw bytes exactly as the C code
does with `memcpy` and pointer casts; multi-byte fields are read and written in
little-endian order at the offsets the declaration in `sfs.h` gets on the
64-bit target its comments assume (`int`, `mode_t`, `uid_t`, `gid_t`, `enum` are
4 bytes, `off_t` and `time_t` are 8 bytes, the struct is 128 bytes).

`unsigned int` arithmetic is taken modulo `2 ^ 32`.  Operations that can call
`abort()` or leave the bounds of an array return `Except Fault _`.
-/

namespace SFS

/-! ## Constants of `sfs.h` -/

abbrev BLOCK_SIZE : Nat := 512
abbrev DISK_SIZE : Nat := 16 * 1024 * 1024
abbrev MAX_FILE_NUMBER : Nat := 4096
abbrev TOTAL_BLOCKS : Nat := DISK_SIZE / BLOCK_SIZE
abbrev INODE_SIZE : Nat := 128
abbrev MAX_BLOCKS_OF_FILE : Nat := 12
abbrev FILE_ENTRY_SIZE : Nat := 128
abbrev MAX_OPENED_FILES : Nat := 100
abbrev INODE_BITMAP_UPDATE : Nat := 0
abbrev DATA_BITMAP_UPDATE : Nat := 1

/-- The modulus of `unsigned int` arithmetic. -/
abbrev U32 : Nat := 4294967296

/-- The modulus of `size_t` and `off_t` arithmetic. -/
abbrev U64 : Nat := 18446744073709551616

/-- Conversion of an unsigned 32-bit value to `int`. -/
def toInt32 (n : Nat) : Int :=
  if n % U32 < 2147483648 then ((n % U32 : Nat) : Int) else ((n % U32 : Nat) : Int) - 4294967296

/-- Ways in which an operation can fail to return. -/
inductive Fault where
  | abort
  | out_of_bounds
  | bad_block
  | timeout
  | null_pointer
  deriving DecidableEq, Repr

instance instDecidableEqExcept {ε α : Type} [DecidableEq ε] [DecidableEq α] :
    DecidableEq (Except ε α) := fun a b =>
  match a, b with
  | .ok x, .ok y =>
    if h : x = y then isTrue (by rw [h]) else isFalse (by intro e; cases e; exact h rfl)
  | .error x, .error y =>
    if h : x = y then isTrue (by rw [h]) else isFalse (by intro e; cases e; exact h rfl)
  | .ok _, .error _ => isFalse (by intro e; cases e)
  | .error _, .ok _ => isFalse (by intro e; cases e)

/-! ## Memory and the block store -/

/-- A byte buffer: the byte stored at every offset. -/
abbrev Bytes : Type := Nat → Nat

/-- A device block, `BLOCK_SIZE` bytes. -/
abbrev Block : Type := Bytes

/-- The block device: the content of every block. -/
abbrev Disk : Type := Nat → Block

/-- Modelled from the spec: `block_read` of `block.h`, which is not among the
sources; `readBlock(index)` gives the `BLOCK_SIZE` bytes of the block. -/
def block_read (disk : Disk) (n : Nat) : Block := disk n

/-- Modelled from the spec: `block_write` of `block.h`, which is not among the
sources; `writeBlock(index, bytes)` replaces the block and no other. -/
def block_write (disk : Disk) (n : Nat) (buf : Block) : Disk :=
  fun b => if b = n then buf else disk b

/-- The function `memset(buffer, 0, BLOCK_SIZE)`. -/
def zero_block : Block := fun _ => 0

/-- The call `memcpy(&dst[off], &src[from], n)`. -/
def memcpy (dst : Bytes) (off : Nat) (src : Bytes) (src_off n : Nat) : Bytes :=
  fun i => if off ≤ i ∧ i < off + n then src (src_off + (i - off)) else dst i

/-- The call `memset(&dst[0], 0, n)`. -/
def memset0 (dst : Bytes) (n : Nat) : Bytes :=
  fun i => if i < n then 0 else dst i

/-- The call `strcpy(&dst[off], s)`: the characters of `s`, then a NUL. -/
def strcpy (dst : Bytes) (off : Nat) (s : List Nat) : Bytes :=
  fun i => if off ≤ i ∧ i < off + s.length then s.getD (i - off) 0
    else if i = off + s.length then 0 else dst i

/-- The test `strcmp(&buf[off], s) == 0` for a C string `s` (no NUL inside):
the bytes at `off` are those of `s`, followed by a NUL. -/
def strcmp_eq (buf : Bytes) (off : Nat) : List Nat → Bool
  | [] => buf off % 256 == 0
  | c :: cs => buf off % 256 == c && strcmp_eq buf (off + 1) cs

/-- A little-endian load of `w` bytes at offset `off`. -/
def load (m : Bytes) (off : Nat) : Nat → Nat
  | 0 => 0
  | w + 1 => m off % 256 + 256 * load m (off + 1) w

/-- A little-endian store of the low `w` bytes of `v` at offset `off`. -/
def store (m : Bytes) (off w v : Nat) : Bytes :=
  fun i => if off ≤ i ∧ i < off + w then v / 256 ^ (i - off) % 256 else m i

/-- A C string given by its characters. -/
def cstr (s : String) : List Nat := s.toList.map Char.toNat

/-! ## Records of `sfs.h` -/

/-- The struct `superblock`: eleven `unsigned int` fields. -/
structure superblock where
  total_blocks : Nat
  inode_bitmap_begin : Nat
  inode_bitmap_blocks : Nat
  data_bitmap_begin : Nat
  data_bitmap_blocks : Nat
  inode_begin : Nat
  inode_blocks : Nat
  data_begin : Nat
  data_blocks : Nat
  free_data_blocks : Nat
  root_inode_ptr : Nat
  deriving DecidableEq, Repr

/-- The size `sizeof(superblock)`. -/
abbrev SUPERBLOCK_SIZE : Nat := 44

/-- The enum constant `DIRECTORY`. -/
abbrev DIRECTORY : Nat := 0

/-- The enum constant `REGULAR_FILE`. -/
abbrev REGULAR_FILE : Nat := 1

/-- An `inode` in memory: its 128 bytes. -/
abbrev inode : Type := Bytes

namespace inode

/-! Field offsets of `struct inode`. -/

abbrev OFF_inum : Nat := 0
abbrev OFF_mode : Nat := 4
abbrev OFF_uid : Nat := 8
abbrev OFF_gid : Nat := 12
abbrev OFF_size : Nat := 16
abbrev OFF_type : Nat := 24
abbrev OFF_atime : Nat := 32
abbrev OFF_ctime : Nat := 40
abbrev OFF_mtime : Nat := 48
abbrev OFF_dtime : Nat := 56
abbrev OFF_blocks_number : Nat := 64
abbrev OFF_links_count : Nat := 68
abbrev OFF_flags : Nat := 72
abbrev OFF_parent_Ptr : Nat := 76
abbrev OFF_block_pointers : Nat := 80

/-- The field `inum`. -/
def inum (r : Bytes) : Nat := load r OFF_inum 4

/-- The field `type`. -/
def type (r : Bytes) : Nat := load r OFF_type 4

/-- The field `blocks_number`. -/
def blocks_number (r : Bytes) : Nat := load r OFF_blocks_number 4

/-- The field `parent_Ptr`. -/
def parent_Ptr (r : Bytes) : Nat := load r OFF_parent_Ptr 4

/-- The element `block_pointers[i]`; outside the array the access is a fault. -/
def block_pointers (r : Bytes) (i : Nat) : Except Fault Nat :=
  if i < MAX_BLOCKS_OF_FILE then .ok (load r (OFF_block_pointers + 4 * i) 4)
  else .error .out_of_bounds

/-- The assignment `block_pointers[i] = v`; outside the array it is a fault. -/
def set_block_pointer (r : Bytes) (i v : Nat) : Except Fault Bytes :=
  if i < MAX_BLOCKS_OF_FILE then .ok (store r (OFF_block_pointers + 4 * i) 4 v)
  else .error .out_of_bounds

end inode

/-- The struct `file_entry` number `j` of a directory block: its `inum`. -/
def entry_inum (buf : Block) (j : Nat) : Nat := load buf (j * FILE_ENTRY_SIZE) 4

/-- The offset of `file_name` in `file_entry` number `j` of a directory block. -/
def entry_name_off (j : Nat) : Nat := j * FILE_ENTRY_SIZE + 4

/-- The struct `filehandler_entry`. -/
structure filehandler_entry where
  filehandler : Nat
  pid : Nat
  inum : Nat
  deriving DecidableEq, Repr

/-- The global state of `sfs.c`: the disk, `sb`, `current_dir`, `opened_files`
and `fh_cursor`. -/
structure FsState where
  disk : Disk
  sb : superblock
  current_dir : inode
  opened_files : Nat → filehandler_entry
  fh_cursor : Nat

/-! ## Helper functions of `sfs.c` -/

/-- The byte and mask that `update_bitmap` addresses for `index`, read back:
bit `index` of the bitmap that begins at block `bitmap_begin`, MSB first. -/
def bitmap_bit (disk : Disk) (bitmap_begin index : Nat) : Bool :=
  (disk (bitmap_begin + index / 8 / BLOCK_SIZE) (index / 8 % BLOCK_SIZE) % 256)
    &&& (128 >>> (index % 8)) != 0

/-- The last lines of `update_bitmap`: read the block, set the bit
`128 >> bit_offset` of byte `char_offset`, write the block back. -/
def bitmap_set (disk : Disk) (block_to_update char_offset bit_offset : Nat) : Disk :=
  let buffer := block_read disk block_to_update
  let buffer' : Block := fun i =>
    if i = char_offset then (buffer char_offset % 256 ||| (128 >>> bit_offset)) % 256
    else buffer i
  block_write disk block_to_update buffer'

/-- The function `update_bitmap`; `sb` is never `NULL` when `sfs.c` calls it. -/
def update_bitmap (sb : superblock) (disk : Disk) (index mode : Nat) : Except Fault Disk :=
  let absolute_char_address := index / 8
  let bitmap_block_offset := absolute_char_address / BLOCK_SIZE
  let char_offset := absolute_char_address % BLOCK_SIZE
  let bit_offset := index % 8
  if mode = INODE_BITMAP_UPDATE then
    if bitmap_block_offset ≥ sb.inode_bitmap_blocks then .error .abort
    else .ok (bitmap_set disk (sb.inode_bitmap_begin + bitmap_block_offset) char_offset bit_offset)
  else if mode = DATA_BITMAP_UPDATE then
    if bitmap_block_offset ≥ sb.data_bitmap_blocks then .error .abort
    else .ok (bitmap_set disk (sb.data_bitmap_begin + bitmap_block_offset) char_offset bit_offset)
  else
    -- `bitmap_block_base` keeps its initial value `-1`
    if bitmap_block_offset = 0 then .error .bad_block
    else .ok (bitmap_set disk (bitmap_block_offset - 1) char_offset bit_offset)

/-- The function `directory_block_init`. -/
def directory_block_init (sb : superblock) (disk : Disk)
    (block_id inum parent_inum : Nat) : Disk :=
  let block_id := (block_id + sb.data_begin) % U32
  let buffer := zero_block
  let buffer := store buffer 0 4 inum
  let buffer := strcpy buffer 4 (cstr ".")
  let buffer := store buffer FILE_ENTRY_SIZE 4 parent_inum
  let buffer := strcpy buffer (FILE_ENTRY_SIZE + 4) (cstr "..")
  block_write disk block_id buffer

/-- The function `get_inode_by_inum`; its parameter is an `int`, so the
quotient and remainder by 4 round towards zero. -/
def get_inode_by_inum (sb : superblock) (disk : Disk) (inum : Int) : Except Fault inode :=
  if inum ≥ MAX_FILE_NUMBER then .error .abort
  else
    let block_offset : Int := Int.tdiv inum 4
    let byte_offset : Int := Int.tmod inum 4 * INODE_SIZE
    let buffer := block_read disk (((sb.inode_begin : Int) + block_offset) % U32).toNat
    -- a negative `byte_offset` addresses memory before `buffer`
    if byte_offset < 0 then .error .out_of_bounds
    else .ok (memcpy zero_block 0 buffer byte_offset.toNat INODE_SIZE)

/-- A `for` loop `for (i = start; i < start + n; i++)` whose body returns from
the function as soon as `body i` is `some _`. -/
def scan_from {α : Type} (body : Nat → Option α) : Nat → Nat → Option α
  | 0, _ => none
  | n + 1, i =>
    match body i with
    | some a => some a
    | none => scan_from body n (i + 1)

/-- The three nested loops shared by `assign_block` and `assign_inode_number`:
the first `(block_offset, byte_offset, bit_offset)` with
`c == 128 >> bit_offset`, as `ret`. -/
def bitmap_scan (disk : Disk) (bitmap_begin bitmap_blocks : Nat) : Option Nat :=
  scan_from (fun block_offset =>
    let buffer := block_read disk ((bitmap_begin + block_offset) % U32)
    scan_from (fun byte_offset =>
      let c := buffer byte_offset % 256
      scan_from (fun bit_offset =>
        if c = 128 >>> bit_offset then
          some ((block_offset * BLOCK_SIZE * 8 + byte_offset * 8 + bit_offset) % U32)
        else none) 8 0) BLOCK_SIZE 0) bitmap_blocks 0

/-- The function `assign_block`: the returned index and the disk afterwards. -/
def assign_block (sb : superblock) (disk : Disk) : Except Fault (Nat × Disk) :=
  if sb.free_data_blocks = 0 then .ok (0, disk)
  else
    match bitmap_scan disk sb.data_bitmap_begin sb.data_bitmap_blocks with
    | some ret =>
      match update_bitmap sb disk ret DATA_BITMAP_UPDATE with
      | .ok disk' => .ok (ret, disk')
      | .error f => .error f
    | none => .ok (0, disk)

/-- The function `assign_inode_number`. -/
def assign_inode_number (sb : superblock) (disk : Disk) : Nat :=
  match bitmap_scan disk sb.inode_bitmap_begin sb.inode_bitmap_blocks with
  | some ret => ret
  | none => 0

/-- The function `retrieve_file`. -/
def retrieve_file (sb : superblock) (disk : Disk) (filename : List Nat)
    (current_dir : inode) : Except Fault (Option inode) :=
  match scan_from (fun i =>
      match inode.block_pointers current_dir i with
      | .error f => some (.error f)
      | .ok p =>
        let absolute_block_id := (p + sb.data_begin) % U32
        let buffer := block_read disk absolute_block_id
        scan_from (fun j =>
          if strcmp_eq buffer (entry_name_off j) filename then
            some (get_inode_by_inum sb disk (toInt32 (entry_inum buffer j)))
          else none) 4 0)
      (inode.blocks_number current_dir) 0 with
  | some (.ok target_file) => .ok (some target_file)
  | some (.error f) => .error f
  | none => .ok none

/-- The function `resolute_path`; `none` is the `NULL` result. -/
def resolute_path (sb : superblock) (disk : Disk) (path : List Nat)
    (current_dir : inode) : Except Fault (Option inode) :=
  if path = cstr "/" then
    match get_inode_by_inum sb disk (toInt32 sb.root_inode_ptr) with
    | .ok target_file => .ok (some target_file)
    | .error f => .error f
  else
    let start := if path.head? = some 47 then 1 else 0
    let filename := path.drop start
    retrieve_file sb disk filename current_dir

/-! ## The operations of `sfs.c` -/

/-- What the operations take from their surroundings: the results of
`getuid`, `getgid`, `getpid`, `time`, the pointers `malloc` returns, and the
bytes of memory that are read without having been written. -/
structure Env where
  uid : Nat
  gid : Nat
  pid : Nat
  now : Nat
  /-- the value of the pointer `sb` -/
  sb_ptr : Nat
  /-- the memory that follows the pointer variable `sb` -/
  mem_after_sb : Bytes
  /-- the value of the pointer `ino` in `sfs_init` -/
  ino_ptr : Nat
  /-- the memory that follows the pointer variable `ino` in `sfs_init` -/
  mem_after_ino : Bytes
  /-- the content of the allocation for the root inode before it is filled -/
  heap : Bytes
  /-- the content of the local `inode ino` of `sfs_create` before it is filled -/
  stack_ino : Bytes

/-- The bytes found at the address of a pointer variable: the eight bytes of
the pointer, then whatever follows it in memory. -/
def pointer_view (p : Nat) (after : Bytes) : Bytes :=
  fun i => if i < 8 then p / 256 ^ i % 256 else after (i - 8)

/-- The value `(unsigned int) ceil((double) a / b)` for operands whose quotient
is exact in double precision. -/
def ceil_div (a b : Nat) : Nat := (a + b - 1) / b

/-- The loop `for (i = 0; i < n; i++) { opened_files[i].filehandler = i;
opened_files[i].inum = 0; }`. -/
def init_opened_files (t : Nat → filehandler_entry) : Nat → (Nat → filehandler_entry)
  | 0 => t
  | k + 1 =>
    let t' := init_opened_files t k
    fun i => if i = k then { t' k with filehandler := k, inum := 0 } else t' i

/-- The loop `for (i = 0; i < n; i++) block_write(begin + i, buffer)` with a
zeroed buffer. -/
def zero_blocks (disk : Disk) (bitmap_begin : Nat) : Nat → Disk
  | 0 => disk
  | k + 1 => block_write (zero_blocks disk bitmap_begin k) (bitmap_begin + k) zero_block

/-- The superblock that `sfs_init` computes, before the root is accounted for. -/
def init_superblock : superblock :=
  let inode_bitmap_begin := 1
  let inode_bitmap_blocks := 1
  let data_bitmap_begin := (inode_bitmap_begin + inode_bitmap_blocks) % U32
  let data_bitmap_blocks := ceil_div TOTAL_BLOCKS (8 * BLOCK_SIZE) % U32
  let inode_begin := (data_bitmap_begin + data_bitmap_blocks) % U32
  let inode_blocks := ceil_div MAX_FILE_NUMBER (BLOCK_SIZE / INODE_SIZE) % U32
  let data_begin := (inode_begin + inode_blocks) % U32
  let data_blocks := (TOTAL_BLOCKS + U32 - data_begin) % U32
  { total_blocks := TOTAL_BLOCKS
    inode_bitmap_begin := inode_bitmap_begin
    inode_bitmap_blocks := inode_bitmap_blocks
    data_bitmap_begin := data_bitmap_begin
    data_bitmap_blocks := data_bitmap_blocks
    inode_begin := inode_begin
    inode_blocks := inode_blocks
    data_begin := data_begin
    data_blocks := data_blocks
    free_data_blocks := data_blocks
    root_inode_ptr := 1 }

/-- The root inode that `sfs_init` fills in memory (`ino`, later `current_dir`);
`mode`, `dtime`, `flags` and all block pointers but the first are not assigned.
The source allocates it with `malloc(sizeof(ino))`, the size of a pointer; the
stores are taken to land in memory of its own, as they would had the allocation
been `sizeof(inode)`. -/
def init_root_inode (env : Env) : inode :=
  let ino := env.heap
  let ino := store ino inode.OFF_inum 4 1
  let ino := store ino inode.OFF_uid 4 env.uid
  let ino := store ino inode.OFF_gid 4 env.gid
  let ino := store ino inode.OFF_size 8 0
  let ino := store ino inode.OFF_type 4 DIRECTORY
  let ino := store ino inode.OFF_atime 8 env.now
  let ino := store ino inode.OFF_ctime 8 (load ino inode.OFF_atime 8)
  let ino := store ino inode.OFF_mtime 8 (load ino inode.OFF_ctime 8)
  let ino := store ino inode.OFF_blocks_number 4 1
  let ino := store ino inode.OFF_links_count 2 0
  let ino := store ino inode.OFF_parent_Ptr 4 1
  store ino (inode.OFF_block_pointers + 4 * 0) 4 1

/-- The function `sfs_init`, run on a disk with arbitrary content. -/
def sfs_init (env : Env) (disk : Disk) : Except Fault FsState := do
  -- file handler array
  let opened_files := init_opened_files (fun _ => ⟨0, 0, 0⟩) MAX_OPENED_FILES
  -- superblock; the bytes copied to block 0 are those at `&sb`
  let sb := init_superblock
  let buffer := memcpy zero_block 0 (pointer_view env.sb_ptr env.mem_after_sb) 0 SUPERBLOCK_SIZE
  let disk := block_write disk 0 buffer
  -- root inode; the bytes copied to the slot are those at `&ino`
  let ino := init_root_inode env
  let buffer := memcpy zero_block 128 (pointer_view env.ino_ptr env.mem_after_ino) 0 INODE_SIZE
  let disk := block_write disk sb.inode_begin buffer
  -- root directory block
  let block0 ← inode.block_pointers ino 0
  let disk := directory_block_init sb disk block0 (inode.inum ino) (inode.inum ino)
  -- inode bitmap
  let disk := zero_blocks disk sb.inode_bitmap_begin sb.inode_bitmap_blocks
  let disk ← update_bitmap sb disk 0 INODE_BITMAP_UPDATE
  let disk ← update_bitmap sb disk 1 INODE_BITMAP_UPDATE
  -- data bitmap
  let disk := zero_blocks disk sb.data_bitmap_begin sb.data_bitmap_blocks
  let disk ← update_bitmap sb disk 0 DATA_BITMAP_UPDATE
  let disk ← update_bitmap sb disk 1 DATA_BITMAP_UPDATE
  let sb := { sb with free_data_blocks := (sb.free_data_blocks + U32 - 2) % U32 }
  pure { disk := disk, sb := sb, current_dir := ino, opened_files := opened_files,
         fh_cursor := 0 }

/-- The read-modify-write of an inode slot at the end of `sfs_create`. -/
def write_inode_slot (sb : superblock) (disk : Disk) (inum : Nat) (ino : inode) : Disk :=
  let block_offset := inum % U32 / 4
  let byte_offset := inum % U32 % 4 * INODE_SIZE
  let buffer := block_read disk ((sb.inode_begin + block_offset) % U32)
  let buffer := memcpy buffer byte_offset ino 0 INODE_SIZE
  block_write disk ((sb.inode_begin + block_offset) % U32) buffer

/-- The function `sfs_create`: its return value and the state afterwards.  The
path is not used by the function. -/
def sfs_create (env : Env) (st : FsState) (_path : List Nat) (mode : Nat) : Int × FsState :=
  let ino := env.stack_ino
  let ino := store ino inode.OFF_inum 4 (assign_inode_number st.sb st.disk)
  if inode.inum ino = 0 then (-1, st)
  else
    let ino := store ino inode.OFF_mode 4 mode
    let ino := store ino inode.OFF_uid 4 env.uid
    let ino := store ino inode.OFF_gid 4 env.gid
    let ino := store ino inode.OFF_size 8 0
    let ino := store ino inode.OFF_type 4 REGULAR_FILE
    let ino := store ino inode.OFF_atime 8 env.now
    let ino := store ino inode.OFF_ctime 8 (load ino inode.OFF_atime 8)
    let ino := store ino inode.OFF_mtime 8 (load ino inode.OFF_ctime 8)
    let ino := store ino inode.OFF_blocks_number 4 0
    let ino := store ino inode.OFF_links_count 2 0
    let ino := store ino inode.OFF_flags 4 0
    let ino := store ino inode.OFF_parent_Ptr 4 1
    (0, { st with disk := write_inode_slot st.sb st.disk (inode.inum ino) ino })

/-- The result of `sfs_open`: the return value, `fi->fh` when it was set, and
the state afterwards. -/
structure OpenResult where
  retstat : Int
  fh : Option Nat
  st : FsState

/-- The function `sfs_open`. -/
def sfs_open (env : Env) (st : FsState) (path : List Nat) : Except Fault OpenResult :=
  match resolute_path st.sb st.disk path st.current_dir with
  | .error f => .error f
  | .ok none => .ok { retstat := -1, fh := none, st := st }
  | .ok (some ino) =>
    let claim (i : Nat) : OpenResult :=
      { retstat := 0, fh := some i,
        st := { st with
          opened_files := fun k =>
            if k = i then { st.opened_files i with inum := inode.inum ino, pid := env.pid }
            else st.opened_files k
          fh_cursor := (i + 1) % MAX_OPENED_FILES } }
    match scan_from (fun i => if (st.opened_files i).inum = 0 then some (claim i) else none)
        (MAX_OPENED_FILES - st.fh_cursor) st.fh_cursor with
    | some r => .ok r
    | none =>
      match scan_from (fun i => if (st.opened_files i).inum ≠ 0 then some (claim i) else none)
          st.fh_cursor 0 with
      | some r => .ok r
      | none => .ok { retstat := -1, fh := none, st := st }

/-- The function `sfs_release` for the handle `fi->fh`. -/
def sfs_release (st : FsState) (fh : Nat) : Except Fault (Int × FsState) :=
  if fh < MAX_OPENED_FILES then
    .ok (0, { st with
      opened_files := fun k =>
        if k = fh then { st.opened_files fh with inum := 0 } else st.opened_files k })
  else .error .out_of_bounds

/-- The loop of `sfs_read`, from the state `(ptr_offset, byte_offset, cursor,
buf)`; the result is the final `cursor` and the caller's buffer. -/
def sfs_read_loop (sb : superblock) (disk : Disk) (ino : inode) (size offset : Nat) :
    Nat → Nat → Nat → Nat → Bytes → Except Fault (Nat × Bytes)
  | 0, _, _, _, _ => .error .timeout
  | fuel + 1, ptr_offset, byte_offset, cursor, buf =>
    if ptr_offset < (offset + size) % U64 / BLOCK_SIZE ∧
        ptr_offset < inode.blocks_number ino then
      match inode.block_pointers ino ptr_offset with
      | .error f => .error f
      | .ok p =>
        let buffer := block_read disk ((sb.data_begin + p) % U32)
        let next_read :=
          if size - cursor < BLOCK_SIZE - byte_offset then size - cursor
          else BLOCK_SIZE - byte_offset
        let buf := memcpy buf cursor buffer byte_offset next_read
        sfs_read_loop sb disk ino size offset fuel ((ptr_offset + 1) % U32) 0
          (cursor + next_read) buf
    else .ok (cursor, buf)

/-- The function `sfs_read`: the return value and the caller's buffer
afterwards. -/
def sfs_read (st : FsState) (path : List Nat) (buf : Bytes) (size offset : Nat) :
    Except Fault (Int × Bytes) :=
  match resolute_path st.sb st.disk path st.current_dir with
  | .error f => .error f
  | .ok none => .ok (-1, buf)
  | .ok (some ino) =>
    let buf := memset0 buf size
    let ptr_offset := offset / BLOCK_SIZE % U32
    let byte_offset := offset % BLOCK_SIZE % U32
    match sfs_read_loop st.sb st.disk ino size offset U32 ptr_offset byte_offset 0 buf with
    | .error f => .error f
    | .ok (cursor, buf) => .ok (toInt32 cursor, buf)

/-- The state of the loop of `sfs_write` when it ends: the final `cursor`, the
disk, and the inode held in memory. -/
structure WriteLoopResult where
  cursor : Nat
  disk : Disk
  ino : inode

/-- The statement `if (ptr_offset == ino->blocks_number) { ... }` that opens the
loop body of `sfs_write`: the disk and the inode afterwards; `none` in place
of the inode is a `break`. -/
def sfs_write_grow (sb : superblock) (disk : Disk) (ino : inode) (ptr_offset : Nat) :
    Except Fault (Disk × Option inode) :=
  if ptr_offset = inode.blocks_number ino then
    if inode.blocks_number ino = MAX_BLOCKS_OF_FILE then .ok (disk, none)
    else
      match assign_block sb disk with
      | .error f => .error f
      | .ok (new_block, disk) =>
        if new_block ≠ 0 then
          match inode.set_block_pointer ino (inode.blocks_number ino) new_block with
          | .error f => .error f
          | .ok ino' =>
            .ok (disk, some (store ino' inode.OFF_blocks_number 4
              (inode.blocks_number ino + 1)))
        else .ok (disk, none)
  else .ok (disk, some ino)

/-- The loop of `sfs_write`, from the state `(disk, ino, ptr_offset,
byte_offset, cursor)`.  The block buffer that receives the caller's bytes is a
local of the loop body and is not passed to `block_write`. -/
def sfs_write_loop (sb : superblock) (buf : Bytes) (size offset : Nat) :
    Nat → Disk → inode → Nat → Nat → Nat → Except Fault WriteLoopResult
  | 0, _, _, _, _, _ => .error .timeout
  | fuel + 1, disk, ino, ptr_offset, byte_offset, cursor =>
    if ptr_offset < (offset + size) % U64 / BLOCK_SIZE then
      match sfs_write_grow sb disk ino ptr_offset with
      | .error f => .error f
      | .ok (disk, none) => .ok { cursor := cursor, disk := disk, ino := ino }
      | .ok (disk, some ino) =>
        match inode.block_pointers ino ptr_offset with
        | .error f => .error f
        | .ok p =>
          let buffer := block_read disk ((sb.data_begin + p) % U32)
          let next_read :=
            if size - cursor < BLOCK_SIZE - byte_offset then size - cursor
            else BLOCK_SIZE - byte_offset
          let _buffer := memcpy buffer byte_offset buf cursor next_read
          sfs_write_loop sb buf size offset fuel disk ino ((ptr_offset + 1) % U32) 0
            (cursor + next_read)
    else .ok { cursor := cursor, disk := disk, ino := ino }

/-- The result of `sfs_write`: the return value, the inode held in memory when
the function returns (`none` when the path did not resolve), and the state
afterwards. -/
structure WriteResult where
  retstat : Int
  ino : Option inode
  st : FsState

/-- The function `sfs_write`. -/
def sfs_write (st : FsState) (path : List Nat) (buf : Bytes) (size offset : Nat) :
    Except Fault WriteResult :=
  match resolute_path st.sb st.disk path st.current_dir with
  | .error f => .error f
  | .ok none => .ok { retstat := -1, ino := none, st := st }
  | .ok (some ino) =>
    let ptr_offset := offset / BLOCK_SIZE % U32
    let byte_offset := offset % BLOCK_SIZE % U32
    match sfs_write_loop st.sb buf size offset U32 st.disk ino ptr_offset byte_offset 0 with
    | .error f => .error f
    | .ok r => .ok { retstat := toInt32 r.cursor, ino := some r.ino,
                     st := { st with disk := r.disk } }

/-- The field `mode`. -/
def inode.mode (r : Bytes) : Nat := load r inode.OFF_mode 4

/-- The field `uid`. -/
def inode.uid (r : Bytes) : Nat := load r inode.OFF_uid 4

/-- The field `gid`. -/
def inode.gid (r : Bytes) : Nat := load r inode.OFF_gid 4

/-- The field `size`. -/
def inode.size (r : Bytes) : Nat := load r inode.OFF_size 8

/-- The field `atime`. -/
def inode.atime (r : Bytes) : Nat := load r inode.OFF_atime 8

/-- The field `ctime`. -/
def inode.ctime (r : Bytes) : Nat := load r inode.OFF_ctime 8

/-- The field `mtime`. -/
def inode.mtime (r : Bytes) : Nat := load r inode.OFF_mtime 8

/-- The field `links_count`. -/
def inode.links_count (r : Bytes) : Nat := load r inode.OFF_links_count 2

/-- The fields of the caller's `struct stat` that `sfs_getattr` assigns. -/
structure stat where
  st_ino : Nat
  st_mode : Nat
  st_uid : Nat
  st_gid : Nat
  st_atime : Nat
  st_ctime : Nat
  st_mtime : Nat
  st_blocks : Nat
  st_nlink : Nat
  st_size : Nat
  deriving DecidableEq, Repr

/-- The function `sfs_getattr`: the return value and the caller's `statbuf`
afterwards.  The result of `resolute_path` is dereferenced without a test, so a
`NULL` result is a fault. -/
def sfs_getattr (st : FsState) (path : List Nat) (_statbuf : stat) :
    Except Fault (Int × stat) :=
  match resolute_path st.sb st.disk path st.current_dir with
  | .error f => .error f
  | .ok none => .error .null_pointer
  | .ok (some target_file) =>
    .ok (0, { st_ino := inode.inum target_file
              st_mode := inode.mode target_file
              st_uid := inode.uid target_file
              st_gid := inode.gid target_file
              st_atime := inode.atime target_file
              st_ctime := inode.ctime target_file
              st_mtime := inode.mtime target_file
              st_blocks := inode.blocks_number target_file
              st_nlink := inode.links_count target_file
              st_size := inode.size target_file })

/-- The function `sfs_unlink`: it logs the call and returns 0. -/
def sfs_unlink (st : FsState) (_path : List Nat) : Int × FsState := (0, st)

/-- The function `sfs_rmdir`: it logs the call and returns 0. -/
def sfs_rmdir (st : FsState) (_path : List Nat) : Int × FsState := (0, st)

/-- One call `memcpy(&buf[cursor], &buffer[byte_offset], next_read)` of the loop
of `sfs_read`, with the index `ptr_offset` of the block pointer read just
before it. -/
structure ReadCopy where
  ptr_offset : Nat
  byte_offset : Nat
  cursor : Nat
  next_read : Nat
  deriving DecidableEq, Repr

/-- The passes through the body of the loop of `sfs_read`, in order: the loop
of `sfs_read_loop` with each pass recorded instead of carried out. -/
def sfs_read_loop_copies (ino : inode) (size offset : Nat) :
    Nat → Nat → Nat → Nat → List ReadCopy
  | 0, _, _, _ => []
  | fuel + 1, ptr_offset, byte_offset, cursor =>
    if ptr_offset < (offset + size) % U64 / BLOCK_SIZE ∧
        ptr_offset < inode.blocks_number ino then
      let next_read :=
        if size - cursor < BLOCK_SIZE - byte_offset then size - cursor
        else BLOCK_SIZE - byte_offset
      { ptr_offset := ptr_offset, byte_offset := byte_offset, cursor := cursor,
        next_read := next_read } ::
        sfs_read_loop_copies ino size offset fuel ((ptr_offset + 1) % U32) 0 (cursor + next_read)
    else []

/-- The passes through the loop body that a call of `sfs_read` makes once the
path has resolved to the inode `ino`. -/
def sfs_read_copies (ino : inode) (size offset : Nat) : List ReadCopy :=
  sfs_read_loop_copies ino size offset U32 (offset / BLOCK_SIZE % U32)
    (offset % BLOCK_SIZE % U32) 0

/-- The effect of one recorded pass on the caller's buffer: the `block_read`
and the `memcpy` of the loop body. -/
def apply_copy (sb : superblock) (disk : Disk) (ino : inode) (buf : Bytes) (x : ReadCopy) :
    Bytes :=
  memcpy buf x.cursor
    (block_read disk
      ((sb.data_begin + load ino (inode.OFF_block_pointers + 4 * x.ptr_offset) 4) % U32))
    x.byte_offset x.next_read

/-- The reads `ino->block_pointers[ptr_offset]` in the `block_read` call of the
loop of `sfs_write`, in order: the loop of `sfs_write_loop` with, for each
read, the index and the value of `ino->blocks_number` at that moment. -/
def sfs_write_loop_derefs (sb : superblock) (size offset : Nat) :
    Nat → Disk → inode → Nat → Nat → Nat → List (Nat × Nat)
  | 0, _, _, _, _, _ => []
  | fuel + 1, disk, ino, ptr_offset, byte_offset, cursor =>
    if ptr_offset < (offset + size) % U64 / BLOCK_SIZE then
      match sfs_write_grow sb disk ino ptr_offset with
      | .error _ => []
      | .ok (_, none) => []
      | .ok (disk, some ino) =>
        (ptr_offset, inode.blocks_number ino) ::
          match inode.block_pointers ino ptr_offset with
          | .error _ => []
          | .ok _ =>
            let next_read :=
              if size - cursor < BLOCK_SIZE - byte_offset then size - cursor
              else BLOCK_SIZE - byte_offset
            sfs_write_loop_derefs sb size offset fuel disk ino ((ptr_offset + 1) % U32) 0
              (cursor + next_read)
    else []

/-- The reads of `block_pointers` that a call of `sfs_write` makes in its
loop. -/
def sfs_write_derefs (st : FsState) (path : List Nat) (size offset : Nat) :
    Except Fault (List (Nat × Nat)) :=
  match resolute_path st.sb st.disk path st.current_dir with
  | .error f => .error f
  | .ok none => .ok []
  | .ok (some ino) =>
    .ok (sfs_write_loop_derefs st.sb size offset U32 st.disk ino (offset / BLOCK_SIZE % U32)
      (offset % BLOCK_SIZE % U32) 0)

/-! ## States used in the statements -/

/-- The superblock in memory when `sfs_init` returns. -/
def fresh_superblock : superblock :=
  { init_superblock with free_data_blocks := (init_superblock.free_data_blocks + U32 - 2) % U32 }

/-- The state in which `sfs_init` returns, written out: every `update_bitmap`
call of `sfs_init` passes its range check. -/
def fresh_volume (env : Env) (disk : Disk) : FsState :=
  let sb := init_superblock
  let disk := block_write disk 0
    (memcpy zero_block 0 (pointer_view env.sb_ptr env.mem_after_sb) 0 SUPERBLOCK_SIZE)
  let disk := block_write disk 10
    (memcpy zero_block 128 (pointer_view env.ino_ptr env.mem_after_ino) 0 INODE_SIZE)
  let disk := directory_block_init sb disk 1 1 1
  let disk := zero_blocks disk 1 1
  let disk := bitmap_set disk 1 0 0
  let disk := bitmap_set disk 1 0 1
  let disk := zero_blocks disk 2 8
  let disk := bitmap_set disk 2 0 0
  let disk := bitmap_set disk 2 0 1
  { disk := disk, sb := fresh_superblock, current_dir := init_root_inode env,
    opened_files := init_opened_files (fun _ => ⟨0, 0, 0⟩) MAX_OPENED_FILES, fh_cursor := 0 }

/-- A bitmap block in which the first `k` bits are set and the others clear. -/
def used_bits (k : Nat) : Block :=
  fun i => if 8 * (i + 1) ≤ k then 255 else if 8 * i < k then 255 - 255 >>> (k - 8 * i) else 0

/-- Sample surroundings for the concrete scenarios. -/
def sample_env : Env where
  uid := 1000
  gid := 1000
  pid := 4242
  now := 1543622400
  sb_ptr := 6304416
  mem_after_sb := zero_block
  ino_ptr := 6304480
  mem_after_ino := zero_block
  heap := zero_block
  stack_ino := zero_block

/-- The inode of a regular file with id 2 that owns the `nb` data blocks
2, 3, ..., `nb + 1`. -/
def sample_inode (nb : Nat) : inode :=
  let ino : inode := zero_block
  let ino := store ino inode.OFF_inum 4 2
  let ino := store ino inode.OFF_type 4 REGULAR_FILE
  let ino := store ino inode.OFF_blocks_number 4 nb
  let ino := store ino inode.OFF_parent_Ptr 4 1
  fun i =>
    if inode.OFF_block_pointers ≤ i ∧ i < inode.OFF_block_pointers + 4 * nb then
      (if (i - inode.OFF_block_pointers) % 4 = 0 then 2 + (i - inode.OFF_block_pointers) / 4
       else 0)
    else ino i

/-- A volume that holds one regular file: the root directory block has the
entries `.`, `..` and `f`, the file `f` has inode 2 and owns `nb` data blocks,
the inode table holds the root in slot 1 and the file in slot 2, and the bitmaps
mark inodes 0 to 2 and data blocks 0 to `nb + 1` as used. -/
def sample_volume (nb : Nat) : FsState :=
  { disk := fun b =>
      if b = 1 then used_bits 3
      else if b = 2 then used_bits (2 + nb)
      else if b = 10 then
        memcpy (memcpy zero_block 128 (init_root_inode sample_env) 0 INODE_SIZE)
          256 (sample_inode nb) 0 INODE_SIZE
      else if b = 1035 then
        strcpy (store (strcpy (store (strcpy (store zero_block 0 4 1) 4 (cstr "."))
          128 4 1) 132 (cstr "..")) 256 4 2) 260 (cstr "f")
      else zero_block
    sb := { fresh_superblock with free_data_blocks := 31732 - nb }
    current_dir := init_root_inode sample_env
    opened_files := init_opened_files (fun _ => ⟨0, 0, 0⟩) MAX_OPENED_FILES
    fh_cursor := 0 }

/-- A volume on which inodes 0 to 8 and data blocks 0 to 8 are in use: in both
bitmaps the first byte is `0xFF` and the second `0x80`. -/
def nine_used_disk : Disk :=
  fun b => if b = 1 ∨ b = 2 then used_bits 9 else zero_block

/-- The directory block that `directory_block_init` builds for the root:
entry 0 is `(1, ".")`, entry 1 is `(1, "..")`, the rest is zero. -/
def root_dir_block : Block :=
  strcpy (store (strcpy (store zero_block 0 4 1) 4 (cstr ".")) FILE_ENTRY_SIZE 4 1)
    (FILE_ENTRY_SIZE + 4) (cstr "..")

/-- The call `sfs_write` followed, when it returns, by `sfs_read` of the same
range: the two return values and the buffer that `sfs_read` filled. -/
def write_then_read (st : FsState) (path : List Nat) (buf out : Bytes) (size offset : Nat) :
    Except Fault (Int × Int × Bytes) :=
  match sfs_write st path buf size offset with
  | .error f => .error f
  | .ok w =>
    match sfs_read w.st path out size offset with
    | .error f => .error f
    | .ok (n, out) => .ok (w.retstat, n, out)

/-- Consecutive calls of `sfs_open` on the same path, none released: the
return value and handle of each call, and the state after the last. -/
def open_repeatedly (env : Env) (path : List Nat) :
    Nat → FsState → Except Fault (List (Int × Option Nat) × FsState)
  | 0, st => .ok ([], st)
  | n + 1, st =>
    match sfs_open env st path with
    | .error f => .error f
    | .ok r =>
      match open_repeatedly env path n r.st with
      | .error f => .error f
      | .ok (rs, st') => .ok ((r.retstat, r.fh) :: rs, st')

/-- The state after the first `k` slots of the handle table were claimed, in
order, for the inode id `id` by the process `env.pid`. -/
def after_opens (env : Env) (st : FsState) (id k : Nat) : FsState :=
  { st with
    opened_files := fun i =>
      if i < k then { st.opened_files i with inum := id, pid := env.pid }
      else st.opened_files i
    fh_cursor := k % MAX_OPENED_FILES }

/-- A call on the handle table: `sfs_open` of a path or `sfs_release` of a
handle. -/
inductive HandleCall where
  | open (path : List Nat)
  | release (fh : Nat)

/-- A sequence of calls on the handle table, in order: the return value and
handle of every call, and the state after the last. -/
def run_calls (env : Env) : List HandleCall → FsState →
    Except Fault (List (Int × Option Nat) × FsState)
  | [], st => .ok ([], st)
  | .open path :: rest, st =>
    match sfs_open env st path with
    | .error f => .error f
    | .ok r =>
      match run_calls env rest r.st with
      | .error f => .error f
      | .ok (rs, st') => .ok ((r.retstat, r.fh) :: rs, st')
  | .release fh :: rest, st =>
    match sfs_release st fh with
    | .error f => .error f
    | .ok (ret, st1) =>
      match run_calls env rest st1 with
      | .error f => .error f
      | .ok (rs, st') => .ok ((ret, none) :: rs, st')

/-- The handles whose slot is free in a state. -/
def free_slots (st : FsState) : List Nat :=
  (List.range MAX_OPENED_FILES).filter (fun i => (st.opened_files i).inum = 0)

/-- One hundred opens of `/f`, the release of handle 10 and one more open of
`/f`: every slot is occupied again and the cursor stands at 11. -/
def calls_until_full : List HandleCall :=
  List.replicate 100 (.open (cstr "/f")) ++ [.release 10, .open (cstr "/f")]

/-- One hundred opens of `/f`, the release of handle 5, one more open of `/f`
and the release of the handles 0 to 5: six slots are free and the cursor stands
at 6. -/
def calls_until_six_free : List HandleCall :=
  List.replicate 100 (.open (cstr "/f")) ++ [.release 5, .open (cstr "/f")]
    ++ (List.range 6).map .release

/-- A state on the disk `nine_used_disk`, with the superblock of a fresh
volume. -/
def nine_used_volume : FsState :=
  { sample_volume 0 with disk := nine_used_disk, sb := fresh_superblock }

/-- The volume `sample_volume 0` (the file `f` owns no block) with a data
bitmap in which blocks 0 to 8 are in use. -/
def growable_volume : FsState :=
  { sample_volume 0 with
    disk := fun b => if b = 2 then used_bits 9 else (sample_volume 0).disk b
    sb := { fresh_superblock with free_data_blocks := 31725 } }

/-- The first block of the bitmap that `mode` selects in `update_bitmap`. -/
def bitmap_begin (sb : superblock) (mode : Nat) : Nat :=
  if mode = INODE_BITMAP_UPDATE then sb.inode_bitmap_begin else sb.data_bitmap_begin

/-- The block count of the bitmap that `mode` selects in `update_bitmap`. -/
def bitmap_blocks (sb : superblock) (mode : Nat) : Nat :=
  if mode = INODE_BITMAP_UPDATE then sb.inode_bitmap_blocks else sb.data_bitmap_blocks

/-- The volume `sample_volume 1` with a fourth directory entry `g` whose inode
id is `0xFFFFFFFC`, and with the first bit set in the last block of the data
bitmap (block 9, the block before the inode table). -/
def wild_id_volume : FsState :=
  { sample_volume 1 with
    disk := fun b =>
      if b = 9 then used_bits 1
      else if b = 1035 then
        strcpy (store ((sample_volume 1).disk 1035) 384 4 4294967292) 388 (cstr "g")
      else (sample_volume 1).disk b }

/-- What the spec says of the name that is looked up: the path with one
leading `/` removed if present, and otherwise the path itself. -/
def strip_separator : List Nat → List Nat
  | 47 :: rest => rest
  | path => path

/-- The slots of a directory in the order of the scan: the owned blocks in
pointer order, and in each block its four entries in order. -/
def entry_slots (dir : inode) : List (Nat × Nat) :=
  (List.range (inode.blocks_number dir)).flatMap (fun i => (List.range 4).map (fun j => (i, j)))

/-- The data block that pointer `i` of a directory names. -/
def owned_block (sb : superblock) (disk : Disk) (dir : inode) (i : Nat) : Block :=
  block_read disk ((load dir (inode.OFF_block_pointers + 4 * i) 4 + sb.data_begin) % U32)

/-- The lookup as the spec words it: the first slot, in the order of the scan,
whose stored name equals the given name. -/
def first_match (sb : superblock) (disk : Disk) (name : List Nat) (dir : inode) :
    Option (Nat × Nat) :=
  (entry_slots dir).find?
    (fun s => strcmp_eq (owned_block sb disk dir s.1) (entry_name_off s.2) name)

/-- An unused directory slot: entry `j` of the block is all zero, so its inode
id is 0 and its name is empty. -/
def unused_slot (buf : Block) (j : Nat) : Prop :=
  ∀ k, k < FILE_ENTRY_SIZE → buf (j * FILE_ENTRY_SIZE + k) = 0

instance instDecidableUnusedSlot (buf : Block) (j : Nat) : Decidable (unused_slot buf j) :=
  Nat.decidableBallLT FILE_ENTRY_SIZE (fun k _ => buf (j * FILE_ENTRY_SIZE + k) = 0)

/-- Every bit that is 1 on the disk `d` is 1 on the disk `e`. -/
def bits_kept (d e : Disk) : Prop :=
  ∀ b i k, k < 8 → (d b i % 256 &&& 128 >>> k != 0) = true →
    (e b i % 256 &&& 128 >>> k != 0) = true

/-- Every bit that is 1 in the inode bitmap or the data bitmap of the disk `d`
is 1 in the same bitmap of the disk `e`. -/
def bitmaps_kept (sb : superblock) (d e : Disk) : Prop :=
  (∀ i, i / 8 / BLOCK_SIZE < sb.inode_bitmap_blocks →
    bitmap_bit d sb.inode_bitmap_begin i = true → bitmap_bit e sb.inode_bitmap_begin i = true) ∧
  (∀ i, i / 8 / BLOCK_SIZE < sb.data_bitmap_blocks →
    bitmap_bit d sb.data_bitmap_begin i = true → bitmap_bit e sb.data_bitmap_begin i = true)

/-- The state `st1` has the superblock of `st`, and every bit that is 1 in a
bitmap of `st` is 1 in the same bitmap of `st1`. -/
def keeps_bitmaps (st st1 : FsState) : Prop :=
  st1.sb = st.sb ∧ bitmaps_kept st.sb st.disk st1.disk

/-! ## Theorems -/

/-! ### Loads and stores -/

theorem load_congr (m m' : Bytes) (w : Nat) : ∀ off : Nat,
    (∀ i, off ≤ i → i < off + w → m i = m' i) → load m off w = load m' off w := by
  induction w with
  | zero => intro off _; rfl
  | succ w ih =>
    intro off h
    simp only [load]
    rw [h off (le_refl _) (by omega), ih (off + 1) (fun i h1 h2 => h i (by omega) (by omega))]

theorem load_store_disjoint (m : Bytes) (off w off' w' v : Nat)
    (h : off + w ≤ off' ∨ off' + w' ≤ off) :
    load (store m off' w' v) off w = load m off w := by
  apply load_congr
  intro i h1 h2
  simp only [store]
  rw [if_neg]
  omega

theorem load_store_same (m : Bytes) (w : Nat) : ∀ off v : Nat,
    load (store m off w v) off w = v % 256 ^ w := by
  induction w with
  | zero => intro off v; simp [load, Nat.mod_one]
  | succ w ih =>
    intro off v
    have h1 : load (store m off (w + 1) v) (off + 1) w
        = load (store m (off + 1) w (v / 256)) (off + 1) w := by
      apply load_congr
      intro i hi1 hi2
      simp only [store]
      rw [if_pos (by omega), if_pos (by omega)]
      have : i - off = (i - (off + 1)) + 1 := by omega
      rw [this, pow_succ, Nat.div_div_eq_div_mul, Nat.mul_comm]
    simp only [load]
    rw [h1, ih]
    simp only [store]
    rw [if_pos (by omega)]
    simp only [Nat.sub_self, pow_zero, Nat.div_one, Nat.mod_mod]
    have h2 : 256 ^ (w + 1) = 256 * 256 ^ w := by ring
    rw [h2, Nat.mod_mul]

/-! ### The block store -/

theorem block_write_apply (disk : Disk) (n : Nat) (buf : Block) (b : Nat) :
    block_write disk n buf b = if b = n then buf else disk b := rfl

theorem bitmap_set_apply (disk : Disk) (blk c bit b : Nat) :
    bitmap_set disk blk c bit b =
      if b = blk then
        (fun i => if i = c then (disk blk c % 256 ||| (128 >>> bit)) % 256 else disk blk i)
      else disk b := rfl

theorem zero_blocks_apply (disk : Disk) (start : Nat) : ∀ (n b : Nat),
    zero_blocks disk start n b = if start ≤ b ∧ b < start + n then zero_block else disk b := by
  intro n
  induction n with
  | zero =>
    intro b
    have h : ¬ (start ≤ b ∧ b < start + 0) := by omega
    rw [if_neg h]
    rfl
  | succ n ih =>
    intro b
    simp only [zero_blocks, block_write_apply, ih]
    by_cases h : b = start + n
    · simp [h]
    · by_cases h2 : start ≤ b ∧ b < start + n
      · have h3 : start ≤ b ∧ b < start + (n + 1) := ⟨h2.1, by omega⟩
        simp [h, h2, h3]
      · have h3 : ¬ (start ≤ b ∧ b < start + (n + 1)) := by omega
        simp [h, h2, h3]

/-! ### The volume after `sfs_init` -/

theorem init_superblock_eq : init_superblock =
    { total_blocks := 32768, inode_bitmap_begin := 1, inode_bitmap_blocks := 1,
      data_bitmap_begin := 2, data_bitmap_blocks := 8, inode_begin := 10,
      inode_blocks := 1024, data_begin := 1034, data_blocks := 31734,
      free_data_blocks := 31734, root_inode_ptr := 1 } := by
  decide

theorem fresh_superblock_eq : fresh_superblock =
    { total_blocks := 32768, inode_bitmap_begin := 1, inode_bitmap_blocks := 1,
      data_bitmap_begin := 2, data_bitmap_blocks := 8, inode_begin := 10,
      inode_blocks := 1024, data_begin := 1034, data_blocks := 31734,
      free_data_blocks := 31732, root_inode_ptr := 1 } := by
  decide

theorem init_root_inode_inum (env : Env) : inode.inum (init_root_inode env) = 1 := by
  simp [init_root_inode, inode.inum, load_store_disjoint, load_store_same, inode.OFF_inum,
    inode.OFF_uid, inode.OFF_gid, inode.OFF_size, inode.OFF_type, inode.OFF_atime,
    inode.OFF_ctime, inode.OFF_mtime, inode.OFF_blocks_number, inode.OFF_links_count,
    inode.OFF_parent_Ptr, inode.OFF_block_pointers]

theorem init_root_inode_blocks_number (env : Env) :
    inode.blocks_number (init_root_inode env) = 1 := by
  simp [init_root_inode, inode.blocks_number, load_store_disjoint, load_store_same,
    inode.OFF_blocks_number, inode.OFF_links_count,
    inode.OFF_parent_Ptr, inode.OFF_block_pointers]

theorem init_root_inode_block0 (env : Env) :
    inode.block_pointers (init_root_inode env) 0 = .ok 1 := by
  simp [init_root_inode, inode.block_pointers, load_store_disjoint, load_store_same]

theorem sfs_init_eq (env : Env) (disk : Disk) :
    sfs_init env disk = .ok (fresh_volume env disk) := by
  simp [sfs_init, fresh_volume, fresh_superblock, init_root_inode_block0, init_root_inode_inum,
    bind, Except.bind, update_bitmap, init_superblock_eq, pure, Except.pure]

theorem fresh_volume_sb (env : Env) (disk : Disk) :
    (fresh_volume env disk).sb = fresh_superblock := rfl

theorem fresh_volume_bitmap (env : Env) (disk : Disk) (b : Nat) (h1 : 1 ≤ b) (h2 : b ≤ 9) :
    (fresh_volume env disk).disk b =
      if b ≤ 2 then (fun i => if i = 0 then 192 else 0) else zero_block := by
  interval_cases b <;>
    simp [fresh_volume, bitmap_set_apply, zero_blocks_apply, block_write_apply,
      directory_block_init, init_superblock_eq, zero_block] <;>
    (funext i; by_cases h : i = 0 <;> simp [h])

/-! ### Loops with an early return -/

theorem scan_from_none {α : Type} (body : Nat → Option α) : ∀ n s : Nat,
    (∀ i, s ≤ i → i < s + n → body i = none) → scan_from body n s = none := by
  intro n
  induction n with
  | zero => intro s _; rfl
  | succ n ih =>
    intro s h
    simp only [scan_from]
    rw [h s (le_refl _) (by omega)]
    exact ih (s + 1) (fun i h1 h2 => h i (by omega) (by omega))

theorem scan_from_some {α : Type} (body : Nat → Option α) : ∀ (n s : Nat) (a : α),
    scan_from body n s = some a →
      ∃ i, s ≤ i ∧ i < s + n ∧ body i = some a ∧ ∀ j, s ≤ j → j < i → body j = none := by
  intro n
  induction n with
  | zero => intro s a h; simp [scan_from] at h
  | succ n ih =>
    intro s a h
    simp only [scan_from] at h
    cases hb : body s with
    | some b =>
      rw [hb] at h
      simp only [Option.some.injEq] at h
      subst h
      exact ⟨s, le_refl _, by omega, hb, fun j h1 h2 => by omega⟩
    | none =>
      rw [hb] at h
      obtain ⟨i, h1, h2, h3, h4⟩ := ih (s + 1) a h
      refine ⟨i, by omega, by omega, h3, ?_⟩
      intro j hj1 hj2
      by_cases hjs : j = s
      · rw [hjs]; exact hb
      · exact h4 j (by omega) hj2

/-! ### The bitmap scan -/

theorem shift_ne_of_lt (bit : Nat) (h : bit < 8) : 128 >>> bit ≠ 0 ∧ 128 >>> bit ≠ 192 := by
  interval_cases bit <;> decide

theorem bitmap_scan_none (disk : Disk) (start n : Nat)
    (h : ∀ blk, blk < n → ∀ byte, byte < BLOCK_SIZE → ∀ bit, bit < 8 →
      disk ((start + blk) % U32) byte % 256 ≠ 128 >>> bit) :
    bitmap_scan disk start n = none := by
  unfold bitmap_scan
  apply scan_from_none
  intro blk _ hblk
  apply scan_from_none
  intro byte _ hbyte
  apply scan_from_none
  intro bit _ hbit
  rw [if_neg]
  exact h blk (by omega) byte (by omega) bit (by omega)

theorem assign_block_of_scan_none (sb : superblock) (disk : Disk)
    (h : bitmap_scan disk sb.data_bitmap_begin sb.data_bitmap_blocks = none) :
    assign_block sb disk = .ok (0, disk) := by
  unfold assign_block
  rw [h]
  simp

theorem assign_inode_number_of_scan_none (sb : superblock) (disk : Disk)
    (h : bitmap_scan disk sb.inode_bitmap_begin sb.inode_bitmap_blocks = none) :
    assign_inode_number sb disk = 0 := by
  unfold assign_inode_number
  rw [h]

theorem sfs_create_of_scan_none (env : Env) (st : FsState) (path : List Nat) (mode : Nat)
    (h : bitmap_scan st.disk st.sb.inode_bitmap_begin st.sb.inode_bitmap_blocks = none) :
    sfs_create env st path mode = (-1, st) := by
  unfold sfs_create
  simp only [assign_inode_number_of_scan_none _ _ h, inode.inum, load_store_same]
  simp

theorem fresh_volume_scan_data (env : Env) (disk : Disk) :
    bitmap_scan (fresh_volume env disk).disk 2 8 = none := by
  apply bitmap_scan_none
  intro blk hblk byte _ bit hbit
  have hm : (2 + blk) % U32 = 2 + blk := Nat.mod_eq_of_lt (by simp only [U32]; omega)
  rw [hm, fresh_volume_bitmap env disk (2 + blk) (by omega) (by omega)]
  have := shift_ne_of_lt bit hbit
  by_cases h2 : 2 + blk ≤ 2
  · by_cases h0 : byte = 0
    · simp only [h2, h0, if_true]; exact fun e => this.2 e.symm
    · simp only [h2, h0, if_true, if_false]; exact fun e => this.1 e.symm
  · simp only [h2, if_false, zero_block]; exact fun e => this.1 e.symm

theorem fresh_volume_scan_inode (env : Env) (disk : Disk) :
    bitmap_scan (fresh_volume env disk).disk 1 1 = none := by
  apply bitmap_scan_none
  intro blk hblk byte _ bit hbit
  have hb : blk = 0 := by omega
  subst hb
  have hm : (1 + 0) % U32 = 1 := by decide
  rw [hm, fresh_volume_bitmap env disk 1 (by omega) (by omega)]
  have := shift_ne_of_lt bit hbit
  by_cases h0 : byte = 0
  · simp only [h0, if_true]; exact fun e => this.2 e.symm
  · simp [h0]; exact fun e => this.1 e.symm

theorem fresh_volume_data_bit (env : Env) (disk : Disk) (i : Nat)
    (hi : i < 8 * BLOCK_SIZE * 8) :
    bitmap_bit (fresh_volume env disk).disk 2 i = true ↔ (i = 0 ∨ i = 1) := by
  simp only [BLOCK_SIZE] at hi
  have hb := fresh_volume_bitmap env disk (2 + i / 8 / 512) (by omega) (by omega)
  unfold bitmap_bit
  simp only [BLOCK_SIZE]
  rw [hb]
  by_cases h8 : i < 8
  · have h0 : i / 8 / 512 = 0 := by omega
    have h1 : i / 8 % 512 = 0 := by omega
    simp only [h0, h1]
    interval_cases i <;> simp <;> decide
  · by_cases h4 : 2 + i / 8 / 512 ≤ 2
    · have h1 : i / 8 % 512 ≠ 0 := by omega
      simp only [h4, if_true, h1, if_false]
      simp
      omega
    · simp only [h4, if_false, zero_block]
      simp
      omega

theorem bitmap_scan_some (disk : Disk) (start n ret : Nat)
    (h : bitmap_scan disk start n = some ret) :
    ∃ blk byte bit, blk < n ∧ byte < BLOCK_SIZE ∧ bit < 8 ∧
      disk ((start + blk) % U32) byte % 256 = 128 >>> bit ∧
      ret = (blk * BLOCK_SIZE * 8 + byte * 8 + bit) % U32 := by
  unfold bitmap_scan at h
  obtain ⟨blk, _, hblk, h1, _⟩ := scan_from_some _ _ _ _ h
  obtain ⟨byte, _, hbyte, h2, _⟩ := scan_from_some _ _ _ _ h1
  obtain ⟨bit, _, hbit, h3, _⟩ := scan_from_some _ _ _ _ h2
  refine ⟨blk, byte, bit, by omega, by omega, by omega, ?_⟩
  by_cases hc : block_read disk ((start + blk) % U32) byte % 256 = 128 >>> bit
  · rw [if_pos hc] at h3
    exact ⟨hc, (Option.some.inj h3).symm⟩
  · rw [if_neg hc] at h3
    cases h3

theorem mask_land_self (bit : Nat) (h : bit < 8) :
    ((128 >>> bit) &&& (128 >>> bit) != 0) = true := by
  interval_cases bit <;> decide

/-- Whenever the scan of `assign_block` and `assign_inode_number` returns an
index, the bit of that index is set in the bitmap that was scanned. -/
theorem bitmap_scan_returns_set_bit (disk : Disk) (start n ret : Nat)
    (h1 : start + n ≤ U32) (h2 : n * (BLOCK_SIZE * 8) ≤ U32)
    (h : bitmap_scan disk start n = some ret) :
    bitmap_bit disk start ret = true := by
  obtain ⟨blk, byte, bit, hblk, hbyte, hbit, hc, hret⟩ := bitmap_scan_some disk start n ret h
  simp only [BLOCK_SIZE, U32] at *
  have hlt : blk * 512 * 8 + byte * 8 + bit < 4294967296 := by
    have : (blk + 1) * (512 * 8) ≤ n * (512 * 8) := Nat.mul_le_mul_right _ (by omega)
    omega
  rw [Nat.mod_eq_of_lt hlt] at hret
  have hm : (start + blk) % 4294967296 = start + blk := Nat.mod_eq_of_lt (by omega)
  rw [hm] at hc
  have e1 : ret / 8 / 512 = blk := by omega
  have e2 : ret / 8 % 512 = byte := by omega
  have e3 : ret % 8 = bit := by omega
  unfold bitmap_bit
  simp only [BLOCK_SIZE]
  rw [e1, e2, e3, hc]
  exact mask_land_self bit hbit

theorem assign_block_returns_set_bit (sb : superblock) (disk disk' : Disk) (ret : Nat)
    (h1 : sb.data_bitmap_begin + sb.data_bitmap_blocks ≤ U32)
    (h2 : sb.data_bitmap_blocks * (BLOCK_SIZE * 8) ≤ U32)
    (h : assign_block sb disk = .ok (ret, disk')) (hret : ret ≠ 0) :
    bitmap_bit disk sb.data_bitmap_begin ret = true := by
  unfold assign_block at h
  by_cases h0 : sb.free_data_blocks = 0
  · rw [if_pos h0] at h
    cases h
    exact absurd rfl hret
  · rw [if_neg h0] at h
    cases hs : bitmap_scan disk sb.data_bitmap_begin sb.data_bitmap_blocks with
    | none =>
      rw [hs] at h
      cases h
      exact absurd rfl hret
    | some r =>
      rw [hs] at h
      cases hu : update_bitmap sb disk r DATA_BITMAP_UPDATE with
      | error f => simp only [hu] at h; cases h
      | ok d =>
        simp only [hu] at h
        cases h
        exact bitmap_scan_returns_set_bit disk _ _ _ h1 h2 hs

theorem assign_inode_number_returns_set_bit (sb : superblock) (disk : Disk)
    (h1 : sb.inode_bitmap_begin + sb.inode_bitmap_blocks ≤ U32)
    (h2 : sb.inode_bitmap_blocks * (BLOCK_SIZE * 8) ≤ U32)
    (hret : assign_inode_number sb disk ≠ 0) :
    bitmap_bit disk sb.inode_bitmap_begin (assign_inode_number sb disk) = true := by
  unfold assign_inode_number at hret ⊢
  cases hs : bitmap_scan disk sb.inode_bitmap_begin sb.inode_bitmap_blocks with
  | none => rw [hs] at hret; exact absurd rfl hret
  | some r => exact bitmap_scan_returns_set_bit disk _ _ _ h1 h2 hs

/-! ### What `sfs_write` leaves on the disk -/

theorem update_bitmap_data_frame (sb : superblock) (disk disk' : Disk) (index : Nat)
    (h : update_bitmap sb disk index DATA_BITMAP_UPDATE = .ok disk') (b : Nat)
    (hb : ¬ (sb.data_bitmap_begin ≤ b ∧ b < sb.data_bitmap_begin + sb.data_bitmap_blocks)) :
    disk' b = disk b := by
  unfold update_bitmap at h
  simp only [DATA_BITMAP_UPDATE, INODE_BITMAP_UPDATE, one_ne_zero, if_false, if_true] at h
  by_cases hc : index / 8 / BLOCK_SIZE ≥ sb.data_bitmap_blocks
  · rw [if_pos hc] at h
    cases h
  · rw [if_neg hc] at h
    cases h
    rw [bitmap_set_apply, if_neg]
    simp only [BLOCK_SIZE] at hc ⊢
    omega

theorem assign_block_frame (sb : superblock) (disk disk' : Disk) (ret : Nat)
    (h : assign_block sb disk = .ok (ret, disk')) (b : Nat)
    (hb : ¬ (sb.data_bitmap_begin ≤ b ∧ b < sb.data_bitmap_begin + sb.data_bitmap_blocks)) :
    disk' b = disk b := by
  unfold assign_block at h
  by_cases h0 : sb.free_data_blocks = 0
  · rw [if_pos h0] at h
    cases h
    rfl
  · rw [if_neg h0] at h
    cases hs : bitmap_scan disk sb.data_bitmap_begin sb.data_bitmap_blocks with
    | none =>
      rw [hs] at h
      cases h
      rfl
    | some r =>
      rw [hs] at h
      cases hu : update_bitmap sb disk r DATA_BITMAP_UPDATE with
      | error f => simp only [hu] at h; cases h
      | ok d =>
        simp only [hu] at h
        cases h
        exact update_bitmap_data_frame sb disk _ _ hu b hb

theorem sfs_write_grow_frame (sb : superblock) (disk d : Disk) (ino : inode) (p : Nat)
    (o : Option inode) (h : sfs_write_grow sb disk ino p = .ok (d, o)) (b : Nat)
    (hb : ¬ (sb.data_bitmap_begin ≤ b ∧ b < sb.data_bitmap_begin + sb.data_bitmap_blocks)) :
    d b = disk b := by
  unfold sfs_write_grow at h
  by_cases h1 : p = inode.blocks_number ino
  · rw [if_pos h1] at h
    by_cases h2 : inode.blocks_number ino = MAX_BLOCKS_OF_FILE
    · rw [if_pos h2] at h
      cases h
      rfl
    · rw [if_neg h2] at h
      cases ha : assign_block sb disk with
      | error f => simp only [ha] at h; cases h
      | ok v =>
        obtain ⟨nb, d2⟩ := v
        simp only [ha] at h
        have hd2 := assign_block_frame sb disk d2 nb ha b hb
        by_cases h3 : nb ≠ 0
        · rw [if_pos h3] at h
          cases hp : inode.set_block_pointer ino (inode.blocks_number ino) nb with
          | error f => simp only [hp] at h; cases h
          | ok i2 =>
            simp only [hp] at h
            cases h
            exact hd2
        · rw [if_neg h3] at h
          cases h
          exact hd2
  · rw [if_neg h1] at h
    cases h
    rfl

/-- The loop of `sfs_write` changes no block outside the data bitmap. -/
theorem sfs_write_loop_frame (sb : superblock) (buf : Bytes) (size offset : Nat) (b : Nat)
    (hb : ¬ (sb.data_bitmap_begin ≤ b ∧ b < sb.data_bitmap_begin + sb.data_bitmap_blocks)) :
    ∀ (fuel : Nat) (disk : Disk) (ino : inode) (ptr_offset byte_offset cursor : Nat)
      (r : WriteLoopResult),
      sfs_write_loop sb buf size offset fuel disk ino ptr_offset byte_offset cursor = .ok r →
      r.disk b = disk b := by
  intro fuel
  induction fuel with
  | zero => intro disk ino p bo c r h; cases h
  | succ fuel ih =>
    intro disk ino p bo c r h
    unfold sfs_write_loop at h
    by_cases hc : p < (offset + size) % U64 / BLOCK_SIZE
    · rw [if_pos hc] at h
      cases hg : sfs_write_grow sb disk ino p with
      | error f => simp only [hg] at h; cases h
      | ok v =>
        obtain ⟨d, o⟩ := v
        have hd := sfs_write_grow_frame sb disk d ino p o hg b hb
        cases o with
        | none =>
          simp only [hg] at h
          cases h
          exact hd
        | some i2 =>
          simp only [hg] at h
          cases hp : inode.block_pointers i2 p with
          | error f => simp only [hp] at h; cases h
          | ok q =>
            simp only [hp] at h
            rw [ih _ _ _ _ _ _ h, hd]
    · rw [if_neg hc] at h
      cases h
      rfl

/-- The function `sfs_write` changes no block outside the data bitmap: the
bytes it is given reach no data block. -/
theorem sfs_write_frame (st : FsState) (path : List Nat) (buf : Bytes) (size offset : Nat)
    (w : WriteResult) (h : sfs_write st path buf size offset = .ok w) (b : Nat)
    (hb : ¬ (st.sb.data_bitmap_begin ≤ b ∧
      b < st.sb.data_bitmap_begin + st.sb.data_bitmap_blocks)) :
    w.st.disk b = st.disk b := by
  unfold sfs_write at h
  cases hr : resolute_path st.sb st.disk path st.current_dir with
  | error f => simp only [hr] at h; cases h
  | ok o =>
    cases o with
    | none =>
      simp only [hr] at h
      cases h
      rfl
    | some ino =>
      simp only [hr] at h
      cases hl : sfs_write_loop st.sb buf size offset U32 st.disk ino
          (offset / BLOCK_SIZE % U32) (offset % BLOCK_SIZE % U32) 0 with
      | error f => simp only [hl] at h; cases h
      | ok r =>
        simp only [hl] at h
        cases h
        exact sfs_write_loop_frame st.sb buf size offset b hb _ _ _ _ _ _ r hl

/-! ### Short writes -/

theorem update_bitmap_data_ok (sb : superblock) (disk : Disk) (index : Nat)
    (h : index / 8 / BLOCK_SIZE < sb.data_bitmap_blocks) :
    ∃ d, update_bitmap sb disk index DATA_BITMAP_UPDATE = .ok d := by
  unfold update_bitmap
  simp only [DATA_BITMAP_UPDATE, INODE_BITMAP_UPDATE, one_ne_zero, if_false, if_true]
  rw [if_neg (by omega)]
  exact ⟨_, rfl⟩

/-- The function `assign_block` never aborts: the index it marks lies in a
bitmap block that it has just scanned. -/
theorem assign_block_ok (sb : superblock) (disk : Disk) :
    ∃ ret d, assign_block sb disk = .ok (ret, d) := by
  unfold assign_block
  by_cases h0 : sb.free_data_blocks = 0
  · rw [if_pos h0]; exact ⟨_, _, rfl⟩
  · rw [if_neg h0]
    cases hs : bitmap_scan disk sb.data_bitmap_begin sb.data_bitmap_blocks with
    | none => exact ⟨_, _, rfl⟩
    | some r =>
      obtain ⟨blk, byte, bit, hblk, hbyte, hbit, _, hret⟩ := bitmap_scan_some _ _ _ _ hs
      have hle : r / 8 / BLOCK_SIZE < sb.data_bitmap_blocks := by
        have h1 : r ≤ blk * BLOCK_SIZE * 8 + byte * 8 + bit := by
          rw [hret]; exact Nat.mod_le _ _
        simp only [BLOCK_SIZE] at *
        omega
      obtain ⟨d, hd⟩ := update_bitmap_data_ok sb disk r hle
      simp only [hd]
      exact ⟨_, _, rfl⟩

theorem sfs_write_grow_spec (sb : superblock) (disk : Disk) (ino : inode) (p : Nat)
    (hp : p ≤ inode.blocks_number ino) (hnb : inode.blocks_number ino ≤ MAX_BLOCKS_OF_FILE) :
    (∃ d, sfs_write_grow sb disk ino p = .ok (d, none)) ∨
    (∃ d i2, sfs_write_grow sb disk ino p = .ok (d, some i2) ∧
      p < inode.blocks_number i2 ∧ inode.blocks_number i2 ≤ MAX_BLOCKS_OF_FILE) := by
  unfold sfs_write_grow
  by_cases h1 : p = inode.blocks_number ino
  · rw [if_pos h1]
    by_cases h2 : inode.blocks_number ino = MAX_BLOCKS_OF_FILE
    · rw [if_pos h2]; exact Or.inl ⟨_, rfl⟩
    · rw [if_neg h2]
      obtain ⟨ret, d, ha⟩ := assign_block_ok sb disk
      simp only [ha]
      by_cases h3 : ret ≠ 0
      · rw [if_pos h3]
        have hlt : inode.blocks_number ino < MAX_BLOCKS_OF_FILE := by omega
        simp only [inode.set_block_pointer, hlt, if_true]
        refine Or.inr ⟨_, _, rfl, ?_, ?_⟩
        · simp only [inode.blocks_number, load_store_same]
          simp only [inode.blocks_number, MAX_BLOCKS_OF_FILE] at hlt h1
          omega
        · simp only [inode.blocks_number, load_store_same]
          simp only [inode.blocks_number, MAX_BLOCKS_OF_FILE] at hlt ⊢
          omega
      · rw [if_neg h3]; exact Or.inl ⟨_, rfl⟩
  · rw [if_neg h1]
    exact Or.inr ⟨_, _, rfl, by omega, hnb⟩

/-- A write that starts inside or right after the owned blocks and ends past
the capacity of 12 blocks is cut short by the loop of `sfs_write`. -/
theorem sfs_write_loop_short (sb : superblock) (buf : Bytes) (size offset : Nat)
    (hsz : 0 < size) (hend : MAX_BLOCKS_OF_FILE * BLOCK_SIZE < offset + size)
    (hno : offset + size < U64) :
    ∀ (fuel : Nat) (disk : Disk) (ino : inode) (ptr_offset byte_offset cursor : Nat),
      MAX_BLOCKS_OF_FILE - ptr_offset < fuel →
      ptr_offset ≤ inode.blocks_number ino →
      inode.blocks_number ino ≤ MAX_BLOCKS_OF_FILE →
      byte_offset < BLOCK_SIZE →
      cursor + offset = ptr_offset * BLOCK_SIZE + byte_offset →
      (cursor = 0 ∨ byte_offset = 0) →
      ∃ r, sfs_write_loop sb buf size offset fuel disk ino ptr_offset byte_offset cursor
          = .ok r ∧ r.cursor < size ∧ r.cursor < 2147483648 := by
  intro fuel
  induction fuel with
  | zero => intro disk ino p bo c hf; omega
  | succ fuel ih =>
    intro disk ino p bo c hf hp hnb hbo hinv hz
    simp only [MAX_BLOCKS_OF_FILE, BLOCK_SIZE, U64] at *
    have hmod : (offset + size) % 18446744073709551616 = offset + size :=
      Nat.mod_eq_of_lt hno
    have hexit : c < size ∧ c < 2147483648 := by
      rcases hz with h | h <;> constructor <;> omega
    unfold sfs_write_loop
    simp only [BLOCK_SIZE, U64, hmod]
    by_cases hc : p < (offset + size) / 512
    · rw [if_pos hc]
      rcases sfs_write_grow_spec sb disk ino p hp hnb with ⟨d, hg⟩ | ⟨d, i2, hg, hlt, hle⟩
      · simp only [hg]
        exact ⟨_, rfl, hexit⟩
      · simp only [hg]
        simp only [MAX_BLOCKS_OF_FILE] at hle
        have hp12 : p < 12 := by omega
        simp only [inode.block_pointers, MAX_BLOCKS_OF_FILE, hp12, if_true]
        have hnr : ¬ (size - c < 512 - bo) := by omega
        rw [if_neg hnr]
        have hp1 : (p + 1) % U32 = p + 1 := Nat.mod_eq_of_lt (by simp only [U32]; omega)
        rw [hp1]
        exact ih d i2 (p + 1) 0 (c + (512 - bo)) (by omega) (by omega) hle (by omega)
          (by omega) (Or.inr rfl)
    · rw [if_neg hc]
      exact ⟨_, rfl, hexit⟩

theorem toInt32_small (n : Nat) (h : n < 2147483648) : toInt32 n = (n : Int) := by
  unfold toInt32
  have h1 : n % U32 = n := Nat.mod_eq_of_lt (by simp only [U32]; omega)
  rw [h1, if_pos h]

/-- A write to a resolvable file that starts inside or right after the owned
blocks and ends past the capacity of 12 blocks returns a count that is not
negative and less than the size asked for. -/
theorem sfs_write_short_when_started_inside (st : FsState) (path : List Nat) (buf : Bytes)
    (size offset : Nat) (ino : inode)
    (hres : resolute_path st.sb st.disk path st.current_dir = .ok (some ino))
    (hnb : inode.blocks_number ino ≤ MAX_BLOCKS_OF_FILE)
    (hstart : offset / BLOCK_SIZE ≤ inode.blocks_number ino)
    (hsz : 0 < size) (hend : MAX_BLOCKS_OF_FILE * BLOCK_SIZE < offset + size)
    (hno : offset + size < U64) :
    ∃ w, sfs_write st path buf size offset = .ok w ∧ 0 ≤ w.retstat ∧ w.retstat < size := by
  have hp0 : offset / BLOCK_SIZE % U32 = offset / BLOCK_SIZE := by
    apply Nat.mod_eq_of_lt
    simp only [MAX_BLOCKS_OF_FILE, BLOCK_SIZE, U32] at *
    omega
  have hb0 : offset % BLOCK_SIZE % U32 = offset % BLOCK_SIZE := by
    apply Nat.mod_eq_of_lt
    simp only [BLOCK_SIZE, U32]
    omega
  obtain ⟨r, hr, hlt, hsmall⟩ := sfs_write_loop_short st.sb buf size offset hsz hend hno U32
    st.disk ino (offset / BLOCK_SIZE) (offset % BLOCK_SIZE) 0
    (by simp only [MAX_BLOCKS_OF_FILE, U32]; omega) hstart hnb
    (by simp only [BLOCK_SIZE]; omega) (by simp only [BLOCK_SIZE]; omega) (Or.inl rfl)
  unfold sfs_write
  simp only [hres, hp0, hb0, hr]
  refine ⟨_, rfl, ?_, ?_⟩
  · show (0 : Int) ≤ toInt32 r.cursor
    rw [toInt32_small _ hsmall]
    exact Int.ofNat_nonneg _
  · show toInt32 r.cursor < (size : Int)
    rw [toInt32_small _ hsmall]
    exact Int.ofNat_lt.mpr hlt

/-! ### The inode table -/

theorem get_inode_by_inum_nat (sb : superblock) (disk : Disk) (n : Nat)
    (h : n < MAX_FILE_NUMBER) :
    get_inode_by_inum sb disk (n : Int) =
      .ok (memcpy zero_block 0 (disk ((sb.inode_begin + n / 4) % U32))
        (n % 4 * INODE_SIZE) INODE_SIZE) := by
  have h1 : Int.tdiv (n : Int) 4 = ((n / 4 : Nat) : Int) := (Int.ofNat_tdiv n 4).symm
  have h2 : Int.tmod (n : Int) 4 = ((n % 4 : Nat) : Int) := (Int.ofNat_tmod n 4).symm
  have h3 : ¬ ((n : Int) ≥ ((MAX_FILE_NUMBER : Nat) : Int)) := by
    simp only [MAX_FILE_NUMBER] at h ⊢
    omega
  have h4 : (((sb.inode_begin : Int) + ((n / 4 : Nat) : Int)) % ((U32 : Nat) : Int)).toNat
      = (sb.inode_begin + n / 4) % U32 := by
    rw [← Int.natCast_add, ← Int.natCast_mod, Int.toNat_ofNat]
  have h5 : ¬ (((n % 4 : Nat) : Int) * ((INODE_SIZE : Nat) : Int) < 0) := by
    have : (0 : Int) ≤ ((n % 4 : Nat) : Int) * ((INODE_SIZE : Nat) : Int) :=
      Int.mul_nonneg (Int.ofNat_nonneg _) (Int.ofNat_nonneg _)
    omega
  have h6 : (((n % 4 : Nat) : Int) * ((INODE_SIZE : Nat) : Int)).toNat = n % 4 * INODE_SIZE := by
    rw [← Int.natCast_mul, Int.toNat_ofNat]
  unfold get_inode_by_inum
  rw [if_neg h3]
  simp only [h1, h2, h4, if_neg h5, h6, block_read]

theorem write_inode_slot_apply (sb : superblock) (disk : Disk) (n : Nat) (rec : inode)
    (h : n < MAX_FILE_NUMBER) (b : Nat) :
    write_inode_slot sb disk n rec b =
      if b = (sb.inode_begin + n / 4) % U32 then
        memcpy (disk ((sb.inode_begin + n / 4) % U32)) (n % 4 * INODE_SIZE) rec 0 INODE_SIZE
      else disk b := by
  have hn : n % U32 = n := Nat.mod_eq_of_lt (by simp only [MAX_FILE_NUMBER, U32] at *; omega)
  simp only [write_inode_slot, hn, block_write_apply, block_read]

/-! ### Path resolution -/

theorem fresh_volume_dir_block (env : Env) (disk : Disk) :
    (fresh_volume env disk).disk 1035 = root_dir_block := by
  simp [fresh_volume, bitmap_set_apply, zero_blocks_apply, block_write_apply,
      directory_block_init, init_superblock_eq, root_dir_block, U32]

theorem fresh_volume_inode_block (env : Env) (disk : Disk) :
    (fresh_volume env disk).disk 10 =
      memcpy zero_block 128 (pointer_view env.ino_ptr env.mem_after_ino) 0 INODE_SIZE := by
  simp [fresh_volume, bitmap_set_apply, zero_blocks_apply, block_write_apply,
      directory_block_init, init_superblock_eq, U32]

theorem load_shift (m : Bytes) (k w : Nat) : ∀ off : Nat,
    load (fun i => m (k + i)) off w = load m (k + off) w := by
  induction w with
  | zero => intro off; rfl
  | succ w ih =>
    intro off
    simp only [load]
    rw [ih (off + 1)]
    rfl

theorem load_pointer_view_low (p : Nat) (after : Bytes) (w : Nat) (hw : w ≤ 8) :
    load (pointer_view p after) 0 w = p % 256 ^ w := by
  rw [← load_store_same after w 0 p]
  apply load_congr
  intro i h1 h2
  simp only [pointer_view, store]
  rw [if_pos (by omega), if_pos (by omega)]
  simp

theorem load_pointer_view_high (p : Nat) (after : Bytes) (off w : Nat) (h : 8 ≤ off) :
    load (pointer_view p after) off w = load after (off - 8) w := by
  have h1 : load (pointer_view p after) off w = load (fun i => after (i - 8)) off w := by
    apply load_congr
    intro i h1 h2
    simp only [pointer_view]
    rw [if_neg (by omega)]
  rw [h1]
  have h2 : load (fun i => after (i - 8)) off w
      = load (fun i => (fun j => after (j - 8)) (8 + i)) (off - 8) w := by
    rw [load_shift (fun j => after (j - 8)) 8 w (off - 8)]
    congr 1
    omega
  rw [h2]
  apply load_congr
  intro i _ _
  show after (8 + i - 8) = after i
  congr 1
  omega

theorem resolute_path_root (sb : superblock) (disk : Disk) (cd : inode)
    (h : sb.root_inode_ptr = 1) :
    resolute_path sb disk (cstr "/") cd =
      .ok (some (memcpy zero_block 0 (disk (sb.inode_begin % U32)) 128 INODE_SIZE)) := by
  have ht : toInt32 1 = ((1 : Nat) : Int) := by decide
  unfold resolute_path
  rw [if_pos rfl, h, ht, get_inode_by_inum_nat sb disk 1 (by decide)]
  simp

theorem retrieve_file_one_block (sb : superblock) (disk : Disk) (name : List Nat) (cd : inode)
    (p : Nat) (h1 : inode.blocks_number cd = 1) (h2 : inode.block_pointers cd 0 = .ok p) :
    retrieve_file sb disk name cd =
      match scan_from (fun j =>
          if strcmp_eq (disk ((p + sb.data_begin) % U32)) (entry_name_off j) name then
            some (get_inode_by_inum sb disk
              (toInt32 (entry_inum (disk ((p + sb.data_begin) % U32)) j)))
          else none) 4 0 with
      | some (.ok target_file) => .ok (some target_file)
      | some (.error f) => .error f
      | none => .ok none := by
  have houter : ∀ (body : Nat → Option (Except Fault inode)), scan_from body 1 0 = body 0 := by
    intro body
    simp only [scan_from]
    cases body 0 <;> rfl
  unfold retrieve_file
  rw [h1, houter]
  simp only [h2, block_read]

theorem fresh_root_record (env : Env) (disk : Disk) (i : Nat) (hi : i < INODE_SIZE) :
    memcpy zero_block 0 ((fresh_volume env disk).disk (10 % U32)) 128 INODE_SIZE i
      = pointer_view env.ino_ptr env.mem_after_ino i := by
  have h10 : 10 % U32 = 10 := by decide
  rw [h10, fresh_volume_inode_block]
  simp only [memcpy, INODE_SIZE] at hi ⊢
  rw [if_pos (by omega), if_pos (by omega)]
  have e : 0 + (128 + (i - 0) - 128) = i := by omega
  rw [e]

theorem resolute_path_fresh_root (env : Env) (disk : Disk) :
    resolute_path (fresh_volume env disk).sb (fresh_volume env disk).disk (cstr "/")
        (fresh_volume env disk).current_dir =
      .ok (some (memcpy zero_block 0 ((fresh_volume env disk).disk (10 % U32)) 128 INODE_SIZE)) := by
  have h := resolute_path_root fresh_superblock (fresh_volume env disk).disk
    (init_root_inode env) (by decide)
  have h10 : fresh_superblock.inode_begin % U32 = 10 % U32 := by decide
  rw [h10] at h
  exact h

theorem resolute_path_fresh_file (env : Env) (disk : Disk) (path : List Nat)
    (hp : path ≠ cstr "/") :
    resolute_path (fresh_volume env disk).sb (fresh_volume env disk).disk path
        (fresh_volume env disk).current_dir =
      match scan_from (fun j =>
          if strcmp_eq root_dir_block (entry_name_off j)
              (path.drop (if path.head? = some 47 then 1 else 0)) then
            some (get_inode_by_inum fresh_superblock (fresh_volume env disk).disk
              (toInt32 (entry_inum root_dir_block j)))
          else none) 4 0 with
      | some (.ok target_file) => .ok (some target_file)
      | some (.error f) => .error f
      | none => .ok none := by
  have h := retrieve_file_one_block fresh_superblock (fresh_volume env disk).disk
    (path.drop (if path.head? = some 47 then 1 else 0)) (init_root_inode env) 1
    (init_root_inode_blocks_number env) (init_root_inode_block0 env)
  have hb : (1 + fresh_superblock.data_begin) % U32 = 1035 := by decide
  rw [hb, fresh_volume_dir_block] at h
  unfold resolute_path
  rw [if_neg hp]
  exact h

theorem sfs_write_of_not_found (st : FsState) (path : List Nat) (buf : Bytes)
    (size offset : Nat) (h : resolute_path st.sb st.disk path st.current_dir = .ok none) :
    sfs_write st path buf size offset = .ok { retstat := -1, ino := none, st := st } := by
  unfold sfs_write
  rw [h]

/-! ### The handle table -/

theorem after_opens_zero (env : Env) (st : FsState) (id : Nat) (h : st.fh_cursor = 0) :
    after_opens env st id 0 = st := by
  cases st
  simp only [after_opens] at h ⊢
  simp [h]

theorem sfs_open_step (env : Env) (st : FsState) (path : List Nat) (ino : inode) (k : Nat)
    (hres : resolute_path st.sb st.disk path st.current_dir = .ok (some ino))
    (hfree : ∀ i, i < MAX_OPENED_FILES → (st.opened_files i).inum = 0)
    (hk : k < MAX_OPENED_FILES) :
    sfs_open env (after_opens env st (inode.inum ino) k) path =
      .ok { retstat := 0, fh := some k, st := after_opens env st (inode.inum ino) (k + 1) } := by
  have hmod : k % MAX_OPENED_FILES = k := Nat.mod_eq_of_lt hk
  have hn : MAX_OPENED_FILES - k = (MAX_OPENED_FILES - 1 - k) + 1 := by
    simp only [MAX_OPENED_FILES] at hk ⊢; omega
  unfold sfs_open
  simp only [after_opens, hres, hmod]
  rw [hn]
  simp only [scan_from, lt_irrefl, if_false, hfree k hk, if_true]
  congr 2
  congr 1
  funext i
  by_cases h1 : i = k
  · subst h1; simp
  · by_cases h2 : i < k
    · have h3 : i < k + 1 := by omega
      simp [h1, h2, h3]
    · have h3 : ¬ i < k + 1 := by omega
      simp [h1, h2, h3]

theorem open_repeatedly_spec (env : Env) (st : FsState) (path : List Nat) (ino : inode)
    (hres : resolute_path st.sb st.disk path st.current_dir = .ok (some ino))
    (hfree : ∀ i, i < MAX_OPENED_FILES → (st.opened_files i).inum = 0) :
    ∀ n k, k + n ≤ MAX_OPENED_FILES →
      open_repeatedly env path n (after_opens env st (inode.inum ino) k) =
        .ok ((List.range' k n).map (fun j => ((0 : Int), some j)),
          after_opens env st (inode.inum ino) (k + n)) := by
  intro n
  induction n with
  | zero => intro k _; rfl
  | succ n ih =>
    intro k hk
    simp only [open_repeatedly]
    rw [sfs_open_step env st path ino k hres hfree (by omega)]
    simp only
    rw [ih (k + 1) (by omega)]
    have e : k + 1 + n = k + (n + 1) := by omega
    simp only [e, List.range', List.map]

theorem sfs_open_full (env : Env) (st : FsState) (path : List Nat) (ino : inode)
    (hres : resolute_path st.sb st.disk path st.current_dir = .ok (some ino))
    (hid : inode.inum ino ≠ 0) :
    sfs_open env (after_opens env st (inode.inum ino) MAX_OPENED_FILES) path =
      .ok { retstat := -1, fh := none,
            st := after_opens env st (inode.inum ino) MAX_OPENED_FILES } := by
  have h1 : scan_from (fun i =>
      if ((after_opens env st (inode.inum ino) MAX_OPENED_FILES).opened_files i).inum = 0 then
        some (⟨0, some i, { after_opens env st (inode.inum ino) MAX_OPENED_FILES with
          opened_files := fun k =>
            if k = i then
              { (after_opens env st (inode.inum ino) MAX_OPENED_FILES).opened_files i with
                inum := inode.inum ino, pid := env.pid }
            else (after_opens env st (inode.inum ino) MAX_OPENED_FILES).opened_files k
          fh_cursor := (i + 1) % MAX_OPENED_FILES }⟩ : OpenResult)
      else none) MAX_OPENED_FILES 0 = none := by
    apply scan_from_none
    intro i _ hi
    have hi2 : i < MAX_OPENED_FILES := by omega
    simp only [after_opens, hi2, if_true, hid, if_false]
  unfold sfs_open
  have hc : (after_opens env st (inode.inum ino) MAX_OPENED_FILES).fh_cursor = 0 := rfl
  have hr : resolute_path (after_opens env st (inode.inum ino) MAX_OPENED_FILES).sb
      (after_opens env st (inode.inum ino) MAX_OPENED_FILES).disk path
      (after_opens env st (inode.inum ino) MAX_OPENED_FILES).current_dir = .ok (some ino) := hres
  rw [hr]
  simp only [hc, Nat.sub_zero]
  rw [h1]
  rfl

theorem init_opened_files_inum (t : Nat → filehandler_entry)
    (ht : ∀ i, (t i).inum = 0) : ∀ n i, (init_opened_files t n i).inum = 0 := by
  intro n
  induction n with
  | zero => intro i; exact ht i
  | succ n ih =>
    intro i
    simp only [init_opened_files]
    by_cases h : i = n
    · simp [h]
    · simp [h, ih i]

/-! ### Which slot `sfs_open` takes -/

theorem scan_from_none_inv {α : Type} (body : Nat → Option α) : ∀ n s : Nat,
    scan_from body n s = none → ∀ i, s ≤ i → i < s + n → body i = none := by
  intro n
  induction n with
  | zero => intro s _ i h1 h2; omega
  | succ n ih =>
    intro s h i h1 h2
    simp only [scan_from] at h
    cases hb : body s with
    | some b => rw [hb] at h; cases h
    | none =>
      rw [hb] at h
      by_cases hi : i = s
      · rw [hi]; exact hb
      · exact ih (s + 1) h i (by omega) (by omega)

/-- When the path resolves, `sfs_open` returns -1 exactly when every slot from
the cursor on is occupied and every slot before the cursor is free. -/
theorem sfs_open_fails_iff (env : Env) (st : FsState) (path : List Nat) (ino : inode)
    (hres : resolute_path st.sb st.disk path st.current_dir = .ok (some ino))
    (hc : st.fh_cursor ≤ MAX_OPENED_FILES) :
    (∃ r, sfs_open env st path = .ok r ∧ r.retstat = -1) ↔
      ((∀ i, st.fh_cursor ≤ i → i < MAX_OPENED_FILES → (st.opened_files i).inum ≠ 0) ∧
       (∀ i, i < st.fh_cursor → (st.opened_files i).inum = 0)) := by
  unfold sfs_open
  simp only [hres]
  constructor
  · rintro ⟨r, hr, hret⟩
    cases h1 : scan_from _ (MAX_OPENED_FILES - st.fh_cursor) st.fh_cursor with
    | some a =>
      rw [h1] at hr
      obtain ⟨i, _, _, hb, _⟩ := scan_from_some _ _ _ _ h1
      by_cases hz : (st.opened_files i).inum = 0
      · rw [if_pos hz] at hb
        cases hb
        cases hr
        simp at hret
      · rw [if_neg hz] at hb
        cases hb
    | none =>
      rw [h1] at hr
      have hA := scan_from_none_inv _ _ _ h1
      cases h2 : scan_from _ st.fh_cursor 0 with
      | some a =>
        rw [h2] at hr
        obtain ⟨i, _, _, hb, _⟩ := scan_from_some _ _ _ _ h2
        by_cases hz : (st.opened_files i).inum ≠ 0
        · rw [if_pos hz] at hb
          cases hb
          cases hr
          simp at hret
        · rw [if_neg hz] at hb
          cases hb
      | none =>
        have hB := scan_from_none_inv _ _ _ h2
        constructor
        · intro i hi1 hi2 hz
          have := hA i hi1 (by omega)
          rw [if_pos hz] at this
          cases this
        · intro i hi
          by_contra hz
          have := hB i (Nat.zero_le _) (by omega)
          rw [if_pos hz] at this
          cases this
  · rintro ⟨hA, hB⟩
    rw [scan_from_none _ _ _ (fun i h1 h2 => by
      rw [if_neg (hA i h1 (by omega))])]
    rw [scan_from_none _ _ _ (fun i _ h2 => by
      rw [if_neg (fun hz => hz (hB i (by omega)))])]
    exact ⟨_, rfl, rfl⟩

/-- What a successful `sfs_open` does: the slot of the handle gets the inode's
id, the cursor moves behind it and no other slot changes; a handle at or after
the old cursor had a free slot, a handle before the old cursor had an occupied
one. -/
theorem sfs_open_success_spec (env : Env) (st : FsState) (path : List Nat) (ino : inode)
    (hres : resolute_path st.sb st.disk path st.current_dir = .ok (some ino))
    (r : OpenResult) (h : Nat) (hr : sfs_open env st path = .ok r) (hfh : r.fh = some h) :
    r.retstat = 0 ∧
    (r.st.opened_files h).inum = inode.inum ino ∧
    r.st.fh_cursor = (h + 1) % MAX_OPENED_FILES ∧
    (∀ k, k ≠ h → r.st.opened_files k = st.opened_files k) ∧
    (st.fh_cursor ≤ h → (st.opened_files h).inum = 0) ∧
    (h < st.fh_cursor → (st.opened_files h).inum ≠ 0) := by
  unfold sfs_open at hr
  simp only [hres] at hr
  cases h1 : scan_from _ (MAX_OPENED_FILES - st.fh_cursor) st.fh_cursor with
  | some a =>
    rw [h1] at hr
    obtain ⟨i, hi1, _, hb, _⟩ := scan_from_some _ _ _ _ h1
    by_cases hz : (st.opened_files i).inum = 0
    · rw [if_pos hz] at hb
      cases hb
      cases hr
      simp only [Option.some.injEq] at hfh
      subst hfh
      refine ⟨rfl, by simp, rfl, ?_, fun _ => hz, fun hlt => by omega⟩
      intro k hk
      simp [hk]
    · rw [if_neg hz] at hb
      cases hb
  | none =>
    rw [h1] at hr
    cases h2 : scan_from _ st.fh_cursor 0 with
    | some a =>
      rw [h2] at hr
      obtain ⟨i, _, hi2, hb, _⟩ := scan_from_some _ _ _ _ h2
      by_cases hz : (st.opened_files i).inum ≠ 0
      · rw [if_pos hz] at hb
        cases hb
        cases hr
        simp only [Option.some.injEq] at hfh
        subst hfh
        refine ⟨rfl, by simp, rfl, ?_, fun hle => by omega, fun _ => hz⟩
        intro k hk
        simp [hk]
      · rw [if_neg hz] at hb
        cases hb
    | none =>
      rw [h2] at hr
      cases hr
      cases hfh

/-! ### Paths that do not resolve -/

theorem sfs_open_of_not_found (env : Env) (st : FsState) (path : List Nat)
    (h : resolute_path st.sb st.disk path st.current_dir = .ok none) :
    sfs_open env st path = .ok { retstat := -1, fh := none, st := st } := by
  unfold sfs_open
  rw [h]

theorem sfs_read_of_not_found (st : FsState) (path : List Nat) (buf : Bytes)
    (size offset : Nat) (h : resolute_path st.sb st.disk path st.current_dir = .ok none) :
    sfs_read st path buf size offset = .ok (-1, buf) := by
  unfold sfs_read
  rw [h]

theorem sfs_getattr_of_not_found (st : FsState) (path : List Nat) (statbuf : stat)
    (h : resolute_path st.sb st.disk path st.current_dir = .ok none) :
    sfs_getattr st path statbuf = .error .null_pointer := by
  unfold sfs_getattr
  rw [h]

/-- When `resolute_path` returns `NULL`, `sfs_getattr` dereferences it, while
`sfs_open`, `sfs_read` and `sfs_write` return -1 and change neither the state
nor the caller's buffer. -/
theorem not_found_results (env : Env) (st : FsState) (path : List Nat) (statbuf : stat)
    (buf : Bytes) (size offset : Nat)
    (h : resolute_path st.sb st.disk path st.current_dir = .ok none) :
    sfs_getattr st path statbuf = .error .null_pointer ∧
    sfs_open env st path = .ok { retstat := -1, fh := none, st := st } ∧
    sfs_read st path buf size offset = .ok (-1, buf) ∧
    sfs_write st path buf size offset = .ok { retstat := -1, ino := none, st := st } :=
  ⟨sfs_getattr_of_not_found st path statbuf h, sfs_open_of_not_found env st path h,
    sfs_read_of_not_found st path buf size offset h,
    sfs_write_of_not_found st path buf size offset h⟩

/-! ### The bitmap update -/

theorem byte_set_bit_facts : ∀ y, y < 256 → ∀ k, k < 8 →
    (((y ||| 128 >>> k) % 256 % 256 &&& 128 >>> k != 0) = true) ∧
    ((y ||| 128 >>> k) % 256 % 256 ||| 128 >>> k) % 256 = (y ||| 128 >>> k) % 256 ∧
    ∀ j, j < 8 → j ≠ k →
      ((y ||| 128 >>> k) % 256 % 256 &&& 128 >>> j != 0) = (y &&& 128 >>> j != 0) := by
  decide!

theorem update_bitmap_eq (sb : superblock) (disk : Disk) (index mode : Nat)
    (hmode : mode = INODE_BITMAP_UPDATE ∨ mode = DATA_BITMAP_UPDATE)
    (hin : index / 8 / BLOCK_SIZE < bitmap_blocks sb mode) :
    update_bitmap sb disk index mode =
      .ok (bitmap_set disk (bitmap_begin sb mode + index / 8 / BLOCK_SIZE)
        (index / 8 % BLOCK_SIZE) (index % 8)) := by
  unfold update_bitmap
  rcases hmode with h | h
  · subst h
    simp only [bitmap_blocks, bitmap_begin, if_true] at hin ⊢
    rw [if_neg (by omega)]
  · subst h
    simp only [bitmap_blocks, bitmap_begin, DATA_BITMAP_UPDATE, INODE_BITMAP_UPDATE,
      one_ne_zero, if_false, if_true] at hin ⊢
    rw [if_neg (by omega)]

theorem bitmap_bit_set_self (disk : Disk) (start index : Nat) :
    bitmap_bit (bitmap_set disk (start + index / 8 / BLOCK_SIZE) (index / 8 % BLOCK_SIZE)
      (index % 8)) start index = true := by
  unfold bitmap_bit
  rw [bitmap_set_apply, if_pos rfl]
  simp only [if_true]
  exact (byte_set_bit_facts _ (Nat.mod_lt _ (by decide)) _ (Nat.mod_lt _ (by decide))).1

theorem bitmap_bit_set_other (disk : Disk) (start index j : Nat) (hj : j ≠ index) :
    bitmap_bit (bitmap_set disk (start + index / 8 / BLOCK_SIZE) (index / 8 % BLOCK_SIZE)
      (index % 8)) start j = bitmap_bit disk start j := by
  unfold bitmap_bit
  rw [bitmap_set_apply]
  by_cases hb : start + j / 8 / BLOCK_SIZE = start + index / 8 / BLOCK_SIZE
  · rw [if_pos hb]
    by_cases hc : j / 8 % BLOCK_SIZE = index / 8 % BLOCK_SIZE
    · simp only [hc, if_true]
      have hne : j % 8 ≠ index % 8 := by
        simp only [BLOCK_SIZE] at hb hc
        omega
      rw [hb.symm] at *
      have := (byte_set_bit_facts (disk (start + j / 8 / BLOCK_SIZE) (index / 8 % BLOCK_SIZE) % 256)
        (Nat.mod_lt _ (by decide)) (index % 8) (Nat.mod_lt _ (by decide))).2.2 (j % 8)
        (Nat.mod_lt _ (by decide)) hne
      rw [hb] at this ⊢
      exact this
    · simp only [hc, if_false, hb]
  · rw [if_neg hb]

theorem bitmap_set_idem (disk : Disk) (blk c k : Nat) (hk : k < 8) :
    bitmap_set (bitmap_set disk blk c k) blk c k = bitmap_set disk blk c k := by
  funext b i
  simp only [bitmap_set_apply]
  by_cases hb : b = blk
  · simp only [hb, if_true]
    by_cases hi : i = c
    · simp only [hi, if_true]
      exact (byte_set_bit_facts _ (Nat.mod_lt _ (by decide)) k hk).2.1
    · simp only [hi, if_false]
  · simp only [hb, if_false]

/-! ### Inode ids of consecutive creates -/

theorem scan_from_congr {α : Type} (body body' : Nat → Option α) : ∀ n s : Nat,
    (∀ i, s ≤ i → i < s + n → body i = body' i) → scan_from body n s = scan_from body' n s := by
  intro n
  induction n with
  | zero => intro s _; rfl
  | succ n ih =>
    intro s h
    simp only [scan_from]
    rw [h s (le_refl _) (by omega), ih (s + 1) (fun i h1 h2 => h i (by omega) (by omega))]

theorem bitmap_scan_congr (disk disk' : Disk) (start n : Nat)
    (h : ∀ blk, blk < n → disk' ((start + blk) % U32) = disk ((start + blk) % U32)) :
    bitmap_scan disk' start n = bitmap_scan disk start n := by
  unfold bitmap_scan
  apply scan_from_congr
  intro blk _ hblk
  have hb := h blk (by omega)
  simp only [block_read, hb]

/-- The function `sfs_create` leaves the inode bitmap as it was, so the next
call of `assign_inode_number` returns the same id again. -/
theorem sfs_create_keeps_next_id (env : Env) (st : FsState) (path : List Nat) (mode : Nat)
    (h1 : st.sb.inode_bitmap_begin + st.sb.inode_bitmap_blocks ≤ st.sb.inode_begin)
    (h2 : st.sb.inode_begin + 1073741824 ≤ U32) :
    assign_inode_number (sfs_create env st path mode).2.sb (sfs_create env st path mode).2.disk
      = assign_inode_number st.sb st.disk := by
  unfold sfs_create
  simp only
  by_cases h0 : inode.inum (store env.stack_ino inode.OFF_inum 4
      (assign_inode_number st.sb st.disk)) = 0
  · rw [if_pos h0]
  · rw [if_neg h0]
    simp only
    unfold assign_inode_number
    rw [bitmap_scan_congr]
    intro blk hblk
    unfold write_inode_slot
    simp only [block_write_apply]
    rw [if_neg]
    simp only [U32] at *
    omega

/-! ### What `sfs_write` leaves in memory -/

theorem sfs_write_sb (st : FsState) (path : List Nat) (buf : Bytes) (size offset : Nat)
    (w : WriteResult) (h : sfs_write st path buf size offset = .ok w) :
    w.st.sb = st.sb ∧ w.st.opened_files = st.opened_files ∧ w.st.fh_cursor = st.fh_cursor ∧
      w.st.current_dir = st.current_dir := by
  unfold sfs_write at h
  cases hr : resolute_path st.sb st.disk path st.current_dir with
  | error f => simp only [hr] at h; cases h
  | ok o =>
    cases o with
    | none =>
      simp only [hr] at h
      cases h
      exact ⟨rfl, rfl, rfl, rfl⟩
    | some ino =>
      simp only [hr] at h
      cases hl : sfs_write_loop st.sb buf size offset U32 st.disk ino
          (offset / BLOCK_SIZE % U32) (offset % BLOCK_SIZE % U32) 0 with
      | error f => simp only [hl] at h; cases h
      | ok r =>
        simp only [hl] at h
        cases h
        exact ⟨rfl, rfl, rfl, rfl⟩

/-! ### Inode ids beyond the table -/

theorem toInt32_of_lt (id : Nat) (h : id < U32) :
    toInt32 id = if id < 2147483648 then (id : Int) else (id : Int) - 4294967296 := by
  unfold toInt32
  rw [Nat.mod_eq_of_lt h]

/-- The guard of `get_inode_by_inum` on an `unsigned int` id passed as `int`:
the call aborts exactly for the ids from 4096 up to `2 ^ 31 - 1`. -/
theorem get_inode_by_inum_aborts_iff (sb : superblock) (disk : Disk) (id : Nat) (h : id < U32) :
    get_inode_by_inum sb disk (toInt32 id) = .error .abort ↔
      (MAX_FILE_NUMBER ≤ id ∧ id < 2147483648) := by
  rw [toInt32_of_lt id h]
  unfold get_inode_by_inum
  by_cases hlt : id < 2147483648
  · rw [if_pos hlt]
    by_cases hge : MAX_FILE_NUMBER ≤ id
    · have : ((id : Int) ≥ ((MAX_FILE_NUMBER : Nat) : Int)) := by exact_mod_cast hge
      rw [if_pos this]
      exact ⟨fun _ => ⟨hge, hlt⟩, fun _ => rfl⟩
    · have : ¬ ((id : Int) ≥ ((MAX_FILE_NUMBER : Nat) : Int)) := by
        intro h'
        exact hge (by exact_mod_cast h')
      rw [if_neg this]
      constructor
      · intro h'
        simp only at h'
        split at h' <;> cases h'
      · intro h'
        exact absurd h'.1 hge
  · rw [if_neg hlt]
    have : ¬ ((id : Int) - 4294967296 ≥ ((MAX_FILE_NUMBER : Nat) : Int)) := by
      simp only [U32, MAX_FILE_NUMBER] at *
      omega
    rw [if_neg this]
    constructor
    · intro h'
      simp only at h'
      split at h' <;> cases h'
    · intro h'
      exact absurd h'.2 hlt

/-! ### The name that is looked up -/

theorem resolute_path_eq_retrieve (sb : superblock) (disk : Disk) (path : List Nat)
    (cd : inode) (h : path ≠ cstr "/") :
    resolute_path sb disk path cd = retrieve_file sb disk (strip_separator path) cd := by
  unfold resolute_path
  rw [if_neg h]
  simp only
  congr 1
  cases path with
  | nil => rfl
  | cons c cs =>
    by_cases hc : c = 47
    · subst hc
      simp [strip_separator]
    · have h1 : (c :: cs).head? ≠ some 47 := by simpa using hc
      rw [if_neg h1]
      unfold strip_separator
      split
      · rename_i heq
        simp at heq
        exact absurd heq.1 hc
      · rfl

/-! ### The directory scan -/

theorem scan_from_find {α : Type} (p : Nat → Bool) (f : Nat → α) : ∀ n s : Nat,
    scan_from (fun j => if p j then some (f j) else none) n s
      = ((List.range' s n).find? p).map f := by
  intro n
  induction n with
  | zero => intro s; rfl
  | succ n ih =>
    intro s
    simp only [scan_from, List.range'_succ, List.find?_cons]
    cases hp : p s with
    | true => simp
    | false => simp [ih (s + 1)]

theorem scan_from_find_nested {α : Type} (p : Nat → Nat → Bool) (f : Nat → Nat → α) (m : Nat) :
    ∀ n s : Nat,
    scan_from (fun i => scan_from (fun j => if p i j then some (f i j) else none) m 0) n s
      = (((List.range' s n).flatMap (fun i => (List.range m).map (fun j => (i, j)))).find?
          (fun x => p x.1 x.2)).map (fun x => f x.1 x.2) := by
  intro n
  induction n with
  | zero => intro s; rfl
  | succ n ih =>
    intro s
    simp only [scan_from, List.range'_succ, List.flatMap_cons, List.find?_append]
    rw [scan_from_find (p s) (f s) m 0, ← List.range_eq_range', List.find?_map]
    cases hf : List.find? ((fun x : Nat × Nat => p x.1 x.2) ∘ fun j => (s, j)) (List.range m) with
    | some j =>
      have hf' : List.find? (p s) (List.range m) = some j := hf
      simp [hf']
    | none =>
      have hf' : List.find? (p s) (List.range m) = none := hf
      simp [hf', ih (s + 1)]

/-- The function `retrieve_file` on a directory of at most twelve blocks is the
lookup of the first matching slot, followed by `get_inode_by_inum`. -/
theorem retrieve_file_eq_first_match (sb : superblock) (disk : Disk) (name : List Nat)
    (dir : inode) (hb : inode.blocks_number dir ≤ MAX_BLOCKS_OF_FILE) :
    retrieve_file sb disk name dir =
      match first_match sb disk name dir with
      | none => .ok none
      | some s =>
        (get_inode_by_inum sb disk
          (toInt32 (entry_inum (owned_block sb disk dir s.1) s.2))).map some := by
  unfold retrieve_file
  rw [scan_from_congr _ (fun i => scan_from (fun j =>
      if strcmp_eq (owned_block sb disk dir i) (entry_name_off j) name then
        some (get_inode_by_inum sb disk (toInt32 (entry_inum (owned_block sb disk dir i) j)))
      else none) 4 0) (inode.blocks_number dir) 0
    (by
      intro i _ hi
      have hi' : i < MAX_BLOCKS_OF_FILE := by omega
      simp only [inode.block_pointers, if_pos hi', owned_block])]
  rw [scan_from_find_nested
    (fun i j => strcmp_eq (owned_block sb disk dir i) (entry_name_off j) name)
    (fun i j => get_inode_by_inum sb disk (toInt32 (entry_inum (owned_block sb disk dir i) j)))
    4 (inode.blocks_number dir) 0, ← List.range_eq_range']
  unfold first_match entry_slots
  cases List.find? (fun s : Nat × Nat =>
      strcmp_eq (owned_block sb disk dir s.1) (entry_name_off s.2) name)
    ((List.range (inode.blocks_number dir)).flatMap
      (fun i => (List.range 4).map (fun j => (i, j)))) with
  | none => rfl
  | some s =>
    simp only [Option.map_some']
    cases get_inode_by_inum sb disk (toInt32 (entry_inum (owned_block sb disk dir s.1) s.2)) with
    | ok r => rfl
    | error f => rfl

theorem mem_entry_slots (dir : inode) (s : Nat × Nat) :
    s ∈ entry_slots dir ↔ s.1 < inode.blocks_number dir ∧ s.2 < 4 := by
  unfold entry_slots
  simp only [List.mem_flatMap, List.mem_range, List.mem_map]
  constructor
  · rintro ⟨i, hi, j, hj, rfl⟩
    exact ⟨hi, hj⟩
  · rintro ⟨h1, h2⟩
    exact ⟨s.1, h1, s.2, h2, rfl⟩

theorem retrieve_file_not_found_iff (sb : superblock) (disk : Disk) (name : List Nat)
    (dir : inode) (hb : inode.blocks_number dir ≤ MAX_BLOCKS_OF_FILE) :
    retrieve_file sb disk name dir = .ok none ↔
      ∀ i, i < inode.blocks_number dir → ∀ j, j < 4 →
        strcmp_eq (owned_block sb disk dir i) (entry_name_off j) name = false := by
  rw [retrieve_file_eq_first_match sb disk name dir hb]
  cases hf : first_match sb disk name dir with
  | none =>
    simp only [true_iff]
    intro i hi j hj
    unfold first_match at hf
    rw [List.find?_eq_none] at hf
    have := hf (i, j) ((mem_entry_slots dir (i, j)).2 ⟨hi, hj⟩)
    simpa using this
  | some s =>
    simp only
    constructor
    · intro h
      cases hg : get_inode_by_inum sb disk
          (toInt32 (entry_inum (owned_block sb disk dir s.1) s.2)) with
      | ok r => rw [hg] at h; cases h
      | error f => rw [hg] at h; cases h
    · intro h
      unfold first_match at hf
      have h1 := List.find?_some hf
      have h2 := (mem_entry_slots dir s).1 (List.mem_of_find?_eq_some hf)
      rw [h s.1 h2.1 s.2 h2.2] at h1
      cases h1
theorem strcmp_eq_unused (buf : Block) (j : Nat) (name : List Nat) (hne : name ≠ [])
    (h0 : 0 ∉ name) (hu : unused_slot buf j) :
    strcmp_eq buf (entry_name_off j) name = false := by
  cases name with
  | nil => exact absurd rfl hne
  | cons c cs =>
    have hc : c ≠ 0 := fun h => h0 (by simp [h])
    have hb : buf (entry_name_off j) = 0 := hu 4 (by decide)
    simp only [strcmp_eq, hb, Nat.zero_mod]
    have : ((0 : Nat) == c) = false := by
      simp only [beq_eq_false_iff_ne, ne_eq]
      exact fun h => hc h.symm
    rw [this]
    rfl

/-- When `retrieve_file` returns an inode, some entry of an owned block matched
the name, no entry before it in the order of the scan did, and the inode is
what `get_inode_by_inum` returns for the id of that entry. -/
theorem retrieve_file_some (sb : superblock) (disk : Disk) (name : List Nat) (dir r : inode)
    (h : retrieve_file sb disk name dir = .ok (some r)) :
    ∃ i j, i < inode.blocks_number dir ∧ i < MAX_BLOCKS_OF_FILE ∧ j < 4 ∧
      strcmp_eq (owned_block sb disk dir i) (entry_name_off j) name = true ∧
      get_inode_by_inum sb disk (toInt32 (entry_inum (owned_block sb disk dir i) j)) = .ok r ∧
      (∀ j', j' < j →
        strcmp_eq (owned_block sb disk dir i) (entry_name_off j') name = false) := by
  unfold retrieve_file at h
  generalize hs : scan_from _ (inode.blocks_number dir) 0 = o at h
  cases o with
  | none => cases h
  | some x =>
    cases x with
    | error f => cases h
    | ok t =>
      simp only [Except.ok.injEq, Option.some.injEq] at h
      subst h
      obtain ⟨i, _, hi, hbody, _⟩ := scan_from_some _ _ _ _ hs
      simp only [inode.block_pointers] at hbody
      by_cases hi' : i < MAX_BLOCKS_OF_FILE
      · rw [if_pos hi'] at hbody
        simp only at hbody
        obtain ⟨j, _, hj, hj2, hj3⟩ := scan_from_some _ _ _ _ hbody
        refine ⟨i, j, by omega, hi', by omega, ?_⟩
        by_cases hm : strcmp_eq (owned_block sb disk dir i) (entry_name_off j) name = true
        · refine ⟨hm, ?_, ?_⟩
          · unfold owned_block at hm
            simp only [hm, if_true, Option.some.injEq] at hj2
            exact hj2
          · intro j' hj'
            have := hj3 j' (by omega) hj'
            by_cases hm' : strcmp_eq (owned_block sb disk dir i) (entry_name_off j') name = true
            · unfold owned_block at hm'
              simp only [hm', if_true] at this
              cases this
            · simpa using hm'
        · unfold owned_block at hm
          simp only [hm] at hj2
          cases hj2
      · rw [if_neg hi'] at hbody
        cases hbody

theorem root_dir_block_matches (name : List Nat) (hne : name ≠ []) (h0 : 0 ∉ name)
    (h1 : name ≠ cstr ".") (h2 : name ≠ cstr "..") (j : Nat) (hj : j < 4) :
    strcmp_eq root_dir_block (entry_name_off j) name = false := by
  have b4 : root_dir_block 4 = 46 := by decide
  have b5 : root_dir_block 5 = 0 := by decide
  have b132 : root_dir_block 132 = 46 := by decide
  have b133 : root_dir_block 133 = 46 := by decide
  have b134 : root_dir_block 134 = 0 := by decide
  have b260 : root_dir_block 260 = 0 := by decide
  have b388 : root_dir_block 388 = 0 := by decide
  have hz : ∀ (d : Nat) (ds : List Nat) (off : Nat), d ≠ 0 → root_dir_block off = 0 →
      strcmp_eq root_dir_block off (d :: ds) = false := by
    intro d ds off hd hoff
    simp only [strcmp_eq, hoff, Nat.zero_mod]
    have : ((0 : Nat) == d) = false := by
      simp only [beq_eq_false_iff_ne, ne_eq]
      exact fun h => hd h.symm
    rw [this]
    rfl
  cases name with
  | nil => exact absurd rfl hne
  | cons c cs =>
    have hc : c ≠ 0 := fun h => h0 (by simp [h])
    have hj' : j = 0 ∨ j = 1 ∨ j = 2 ∨ j = 3 := by omega
    rcases hj' with rfl | rfl | rfl | rfl
    · show strcmp_eq root_dir_block 4 (c :: cs) = false
      by_cases hc46 : c = 46
      · subst hc46
        cases cs with
        | nil => exact absurd rfl h1
        | cons d ds =>
          have hd : d ≠ 0 := fun h => h0 (by simp [h])
          rw [show strcmp_eq root_dir_block 4 (46 :: d :: ds)
            = (root_dir_block 4 % 256 == 46 && strcmp_eq root_dir_block 5 (d :: ds)) from rfl,
            hz d ds 5 hd b5, Bool.and_false]
      · simp only [strcmp_eq, b4]
        have : ((46 % 256 : Nat) == c) = false := by
          simp only [beq_eq_false_iff_ne, ne_eq]
          exact fun h => hc46 h.symm
        rw [this]
        rfl
    · show strcmp_eq root_dir_block 132 (c :: cs) = false
      by_cases hc46 : c = 46
      · subst hc46
        cases cs with
        | nil => simp only [strcmp_eq, b133]; decide
        | cons d ds =>
          by_cases hd46 : d = 46
          · subst hd46
            cases ds with
            | nil => exact absurd rfl h2
            | cons e es =>
              have he : e ≠ 0 := fun h => h0 (by simp [h])
              rw [show strcmp_eq root_dir_block 132 (46 :: 46 :: e :: es)
                = (root_dir_block 132 % 256 == 46 && (root_dir_block 133 % 256 == 46 &&
                    strcmp_eq root_dir_block 134 (e :: es))) from rfl,
                hz e es 134 he b134, Bool.and_false, Bool.and_false]
          · simp only [strcmp_eq, b133]
            have : ((46 % 256 : Nat) == d) = false := by
              simp only [beq_eq_false_iff_ne, ne_eq]
              exact fun h => hd46 h.symm
            rw [this]
            simp
      · simp only [strcmp_eq, b132]
        have : ((46 % 256 : Nat) == c) = false := by
          simp only [beq_eq_false_iff_ne, ne_eq]
          exact fun h => hc46 h.symm
        rw [this]
        rfl
    · exact hz c cs 260 hc b260
    · exact hz c cs 388 hc b388

theorem strip_separator_eq_drop (path : List Nat) :
    path.drop (if path.head? = some 47 then 1 else 0) = strip_separator path := by
  cases path with
  | nil => rfl
  | cons c cs =>
    by_cases hc : c = 47
    · subst hc
      simp [strip_separator]
    · have h1 : (c :: cs).head? ≠ some 47 := by simpa using hc
      rw [if_neg h1]
      unfold strip_separator
      split
      · rename_i heq
        simp at heq
        exact absurd heq.1 hc
      · rfl

/-- On a freshly formatted volume a path other than `/` whose name is not
empty, `.` or `..` resolves to no entry. -/
theorem resolute_path_fresh_not_found (env : Env) (disk : Disk) (path : List Nat)
    (hp : path ≠ cstr "/") (hne : strip_separator path ≠ []) (h0 : 0 ∉ strip_separator path)
    (h1 : strip_separator path ≠ cstr ".") (h2 : strip_separator path ≠ cstr "..") :
    resolute_path (fresh_volume env disk).sb (fresh_volume env disk).disk path
      (fresh_volume env disk).current_dir = .ok none := by
  rw [resolute_path_fresh_file env disk path hp, strip_separator_eq_drop, scan_from_none]
  intro j _ hj
  rw [root_dir_block_matches _ hne h0 h1 h2 j (by omega)]
  rfl

/-! ### The loop of `sfs_read` -/

theorem sfs_read_loop_spec (sb : superblock) (disk : Disk) (ino : inode) (size offset : Nat)
    (hb : inode.blocks_number ino ≤ MAX_BLOCKS_OF_FILE) :
    ∀ (fuel ptr_offset byte_offset cursor : Nat) (buf : Bytes),
      inode.blocks_number ino - ptr_offset < fuel →
      byte_offset < BLOCK_SIZE → cursor ≤ size →
      sfs_read_loop sb disk ino size offset fuel ptr_offset byte_offset cursor buf =
        .ok (cursor + ((sfs_read_loop_copies ino size offset fuel ptr_offset byte_offset
              cursor).map ReadCopy.next_read).sum,
          (sfs_read_loop_copies ino size offset fuel ptr_offset byte_offset cursor).foldl
            (apply_copy sb disk ino) buf) ∧
      cursor + ((sfs_read_loop_copies ino size offset fuel ptr_offset byte_offset
              cursor).map ReadCopy.next_read).sum ≤ size ∧
      cursor + ((sfs_read_loop_copies ino size offset fuel ptr_offset byte_offset
              cursor).map ReadCopy.next_read).sum
        ≤ cursor + BLOCK_SIZE * (inode.blocks_number ino - ptr_offset) ∧
      ∀ x ∈ sfs_read_loop_copies ino size offset fuel ptr_offset byte_offset cursor,
        x.byte_offset + x.next_read ≤ BLOCK_SIZE ∧ x.cursor + x.next_read ≤ size ∧
        x.ptr_offset < inode.blocks_number ino := by
  intro fuel
  induction fuel with
  | zero => intro p bo c buf hf; omega
  | succ fuel ih =>
    intro p bo c buf hf hbo hc
    unfold sfs_read_loop sfs_read_loop_copies
    by_cases hcond : p < (offset + size) % U64 / BLOCK_SIZE ∧ p < inode.blocks_number ino
    · rw [if_pos hcond, if_pos hcond]
      have hp12 : p < MAX_BLOCKS_OF_FILE := by omega
      have hp1 : (p + 1) % U32 = p + 1 :=
        Nat.mod_eq_of_lt (by simp only [MAX_BLOCKS_OF_FILE, U32] at *; omega)
      simp only [inode.block_pointers, if_pos hp12, hp1]
      have hnr : (if size - c < BLOCK_SIZE - bo then size - c else BLOCK_SIZE - bo) ≤ size - c ∧
          (if size - c < BLOCK_SIZE - bo then size - c else BLOCK_SIZE - bo)
            ≤ BLOCK_SIZE - bo := by
        by_cases h : size - c < BLOCK_SIZE - bo
        · rw [if_pos h]; omega
        · rw [if_neg h]; omega
      generalize (if size - c < BLOCK_SIZE - bo then size - c else BLOCK_SIZE - bo) = nr at hnr
      obtain ⟨h1, h2, h3, h4⟩ := ih (p + 1) 0 (c + nr)
        (memcpy buf c (block_read disk
          ((sb.data_begin + load ino (inode.OFF_block_pointers + 4 * p) 4) % U32)) bo nr)
        (by omega) (by decide) (by omega)
      refine ⟨?_, ?_, ?_, ?_⟩
      · rw [h1]
        simp only [List.map_cons, List.sum_cons, List.foldl_cons, apply_copy]
        rw [Nat.add_assoc]
      · simp only [List.map_cons, List.sum_cons]
        omega
      · simp only [List.map_cons, List.sum_cons]
        simp only [BLOCK_SIZE] at *
        omega
      · intro x hx
        simp only [List.mem_cons] at hx
        rcases hx with rfl | hx
        · simp only
          refine ⟨by omega, by omega, hcond.2⟩
        · exact h4 x hx
    · rw [if_neg hcond, if_neg hcond]
      refine ⟨rfl, ?_, ?_, ?_⟩
      · simpa using hc
      · simp
      · intro x hx
        exact absurd hx (by simp)

/-- On an inode of at most twelve blocks `sfs_read` returns, its count is the
sum of the lengths of the recorded passes and lies between 0 and `size`, the
buffer is the zeroed buffer with the passes applied in order, and every pass
stays inside the block buffer, inside the first `size` bytes of the caller's
buffer and below `blocks_number`. -/
theorem sfs_read_spec (st : FsState) (path : List Nat) (buf : Bytes) (size offset : Nat)
    (ino : inode)
    (hres : resolute_path st.sb st.disk path st.current_dir = .ok (some ino))
    (hb : inode.blocks_number ino ≤ MAX_BLOCKS_OF_FILE) :
    sfs_read st path buf size offset =
        .ok ((((sfs_read_copies ino size offset).map ReadCopy.next_read).sum : Nat),
          (sfs_read_copies ino size offset).foldl (apply_copy st.sb st.disk ino)
            (memset0 buf size)) ∧
      ((sfs_read_copies ino size offset).map ReadCopy.next_read).sum ≤ size ∧
      ∀ x ∈ sfs_read_copies ino size offset,
        x.byte_offset + x.next_read ≤ BLOCK_SIZE ∧ x.cursor + x.next_read ≤ size ∧
        x.ptr_offset < inode.blocks_number ino := by
  have hbo : offset % BLOCK_SIZE % U32 < BLOCK_SIZE := by
    have : offset % BLOCK_SIZE < BLOCK_SIZE := Nat.mod_lt _ (by decide)
    exact lt_of_le_of_lt (Nat.mod_le _ _) this
  obtain ⟨h1, h2, h3, h4⟩ := sfs_read_loop_spec st.sb st.disk ino size offset hb U32
    (offset / BLOCK_SIZE % U32) (offset % BLOCK_SIZE % U32) 0 (memset0 buf size)
    (by simp only [MAX_BLOCKS_OF_FILE, U32] at *; omega) hbo (Nat.zero_le _)
  simp only [Nat.zero_add] at h1 h2 h3
  refine ⟨?_, h2, h4⟩
  unfold sfs_read
  rw [hres]
  simp only
  rw [h1]
  simp only
  rw [toInt32_small _ (by
    simp only [MAX_BLOCKS_OF_FILE, BLOCK_SIZE] at *
    have : 512 * (inode.blocks_number ino - offset / 512 % U32) ≤ 512 * 12 :=
      Nat.mul_le_mul_left _ (by omega)
    omega)]
  rfl

/-! ### Bits that stay set -/

theorem bits_kept_refl (d : Disk) : bits_kept d d := fun _ _ _ _ h => h

theorem bits_kept_trans (d e f : Disk) (h1 : bits_kept d e) (h2 : bits_kept e f) :
    bits_kept d f := fun b i k hk h => h2 b i k hk (h1 b i k hk h)

theorem bitmaps_kept_of_bits_kept (sb : superblock) (d e : Disk) (h : bits_kept d e) :
    bitmaps_kept sb d e := by
  constructor
  · intro i _ hi
    exact h _ _ _ (Nat.mod_lt _ (by decide)) hi
  · intro i _ hi
    exact h _ _ _ (Nat.mod_lt _ (by decide)) hi

theorem bitmaps_kept_of_eq (sb : superblock) (d e : Disk) (h : e = d) : bitmaps_kept sb d e := by
  rw [h]
  exact bitmaps_kept_of_bits_kept sb d d (bits_kept_refl d)

theorem bitmap_set_bits_kept (disk : Disk) (blk c bit : Nat) (hbit : bit < 8) :
    bits_kept disk (bitmap_set disk blk c bit) := by
  intro b i k hk h
  rw [bitmap_set_apply]
  by_cases hb : b = blk
  · rw [if_pos hb]
    by_cases hi : i = c
    · simp only [hi, if_true]
      rw [hb, hi] at h
      have hf := byte_set_bit_facts (disk blk c % 256) (Nat.mod_lt _ (by decide)) bit hbit
      by_cases hkb : k = bit
      · rw [hkb]; exact hf.1
      · rw [hf.2.2 k hk hkb]
        exact h
    · simp only [hi, if_false]
      rw [hb] at h
      exact h
  · rw [if_neg hb]
    exact h

theorem update_bitmap_bits_kept (sb : superblock) (disk d : Disk) (index mode : Nat)
    (h : update_bitmap sb disk index mode = .ok d) : bits_kept disk d := by
  unfold update_bitmap at h
  simp only at h
  split at h
  · split at h
    · cases h
    · cases h
      exact bitmap_set_bits_kept _ _ _ _ (Nat.mod_lt _ (by decide))
  · split at h
    · split at h
      · cases h
      · cases h
        exact bitmap_set_bits_kept _ _ _ _ (Nat.mod_lt _ (by decide))
    · split at h
      · cases h
      · cases h
        exact bitmap_set_bits_kept _ _ _ _ (Nat.mod_lt _ (by decide))

theorem assign_block_bits_kept (sb : superblock) (disk d : Disk) (ret : Nat)
    (h : assign_block sb disk = .ok (ret, d)) : bits_kept disk d := by
  unfold assign_block at h
  by_cases h0 : sb.free_data_blocks = 0
  · rw [if_pos h0] at h
    cases h
    exact bits_kept_refl _
  · rw [if_neg h0] at h
    cases hs : bitmap_scan disk sb.data_bitmap_begin sb.data_bitmap_blocks with
    | none =>
      rw [hs] at h
      cases h
      exact bits_kept_refl _
    | some r =>
      rw [hs] at h
      simp only at h
      cases hu : update_bitmap sb disk r DATA_BITMAP_UPDATE with
      | error f => rw [hu] at h; cases h
      | ok d' =>
        rw [hu] at h
        cases h
        exact update_bitmap_bits_kept sb disk _ _ _ hu

theorem sfs_write_grow_bits_kept (sb : superblock) (disk d : Disk) (ino : inode) (p : Nat)
    (o : Option inode) (h : sfs_write_grow sb disk ino p = .ok (d, o)) : bits_kept disk d := by
  unfold sfs_write_grow at h
  by_cases h1 : p = inode.blocks_number ino
  · rw [if_pos h1] at h
    by_cases h2 : inode.blocks_number ino = MAX_BLOCKS_OF_FILE
    · rw [if_pos h2] at h
      cases h
      exact bits_kept_refl _
    · rw [if_neg h2] at h
      cases ha : assign_block sb disk with
      | error f => simp only [ha] at h; cases h
      | ok v =>
        obtain ⟨ret, d'⟩ := v
        simp only [ha] at h
        have hk := assign_block_bits_kept sb disk d' ret ha
        by_cases h3 : ret ≠ 0
        · rw [if_pos h3] at h
          cases hp : inode.set_block_pointer ino (inode.blocks_number ino) ret with
          | error f => simp only [hp] at h; cases h
          | ok i2 =>
            simp only [hp] at h
            cases h
            exact hk
        · rw [if_neg h3] at h
          cases h
          exact hk
  · rw [if_neg h1] at h
    cases h
    exact bits_kept_refl _

theorem sfs_write_loop_bits_kept (sb : superblock) (buf : Bytes) (size offset : Nat) :
    ∀ (fuel : Nat) (disk : Disk) (ino : inode) (ptr_offset byte_offset cursor : Nat)
      (r : WriteLoopResult),
      sfs_write_loop sb buf size offset fuel disk ino ptr_offset byte_offset cursor = .ok r →
      bits_kept disk r.disk := by
  intro fuel
  induction fuel with
  | zero => intro disk ino p bo c r h; cases h
  | succ fuel ih =>
    intro disk ino p bo c r h
    unfold sfs_write_loop at h
    by_cases hc : p < (offset + size) % U64 / BLOCK_SIZE
    · rw [if_pos hc] at h
      cases hg : sfs_write_grow sb disk ino p with
      | error f => simp only [hg] at h; cases h
      | ok v =>
        obtain ⟨d, o⟩ := v
        have hk := sfs_write_grow_bits_kept sb disk d ino p o hg
        cases o with
        | none =>
          simp only [hg] at h
          cases h
          exact hk
        | some i2 =>
          simp only [hg] at h
          cases hp : inode.block_pointers i2 p with
          | error f => simp only [hp] at h; cases h
          | ok q =>
            simp only [hp] at h
            exact bits_kept_trans _ _ _ hk (ih _ _ _ _ _ r h)
    · rw [if_neg hc] at h
      cases h
      exact bits_kept_refl _

theorem sfs_write_bits_kept (st : FsState) (path : List Nat) (buf : Bytes) (size offset : Nat)
    (w : WriteResult) (h : sfs_write st path buf size offset = .ok w) :
    bits_kept st.disk w.st.disk := by
  unfold sfs_write at h
  cases hr : resolute_path st.sb st.disk path st.current_dir with
  | error f => simp only [hr] at h; cases h
  | ok o =>
    cases o with
    | none =>
      simp only [hr] at h
      cases h
      exact bits_kept_refl _
    | some ino =>
      simp only [hr] at h
      cases hl : sfs_write_loop st.sb buf size offset U32 st.disk ino
          (offset / BLOCK_SIZE % U32) (offset % BLOCK_SIZE % U32) 0 with
      | error f => simp only [hl] at h; cases h
      | ok r =>
        simp only [hl] at h
        cases h
        exact sfs_write_loop_bits_kept st.sb buf size offset _ _ _ _ _ _ r hl

theorem sfs_create_bitmap_blocks (env : Env) (st : FsState) (path : List Nat) (mode : Nat)
    (h3 : st.sb.inode_begin + 1073741824 ≤ U32) (b : Nat) (hb : b < st.sb.inode_begin) :
    (sfs_create env st path mode).2.disk b = st.disk b := by
  unfold sfs_create
  simp only
  by_cases h0 : inode.inum (store env.stack_ino inode.OFF_inum 4
      (assign_inode_number st.sb st.disk)) = 0
  · rw [if_pos h0]
  · rw [if_neg h0]
    simp only
    unfold write_inode_slot
    simp only [block_write_apply]
    rw [if_neg]
    simp only [U32] at *
    omega

theorem sfs_create_bitmaps_kept (env : Env) (st : FsState) (path : List Nat) (mode : Nat)
    (h1 : st.sb.inode_bitmap_begin + st.sb.inode_bitmap_blocks ≤ st.sb.inode_begin)
    (h2 : st.sb.data_bitmap_begin + st.sb.data_bitmap_blocks ≤ st.sb.inode_begin)
    (h3 : st.sb.inode_begin + 1073741824 ≤ U32) :
    bitmaps_kept st.sb st.disk (sfs_create env st path mode).2.disk := by
  constructor
  · intro i hi h
    unfold bitmap_bit at h ⊢
    rw [sfs_create_bitmap_blocks env st path mode h3 _ (by omega)]
    exact h
  · intro i hi h
    unfold bitmap_bit at h ⊢
    rw [sfs_create_bitmap_blocks env st path mode h3 _ (by omega)]
    exact h

theorem sfs_open_disk (env : Env) (st : FsState) (path : List Nat) (r : OpenResult)
    (h : sfs_open env st path = .ok r) : r.st.disk = st.disk ∧ r.st.sb = st.sb := by
  unfold sfs_open at h
  cases hr : resolute_path st.sb st.disk path st.current_dir with
  | error f => simp only [hr] at h; cases h
  | ok o =>
    cases o with
    | none =>
      simp only [hr] at h
      cases h
      exact ⟨rfl, rfl⟩
    | some ino =>
      simp only [hr] at h
      generalize hs1 : scan_from _ (MAX_OPENED_FILES - st.fh_cursor) st.fh_cursor = o1 at h
      cases o1 with
      | some x =>
        simp only [Except.ok.injEq] at h
        obtain ⟨i, _, _, hi, _⟩ := scan_from_some _ _ _ _ hs1
        split at hi
        · cases hi
          rw [← h]
          exact ⟨rfl, rfl⟩
        · cases hi
      | none =>
        simp only at h
        generalize hs2 : scan_from _ st.fh_cursor 0 = o2 at h
        cases o2 with
        | some x =>
          simp only [Except.ok.injEq] at h
          obtain ⟨i, _, _, hi, _⟩ := scan_from_some _ _ _ _ hs2
          split at hi
          · cases hi
            rw [← h]
            exact ⟨rfl, rfl⟩
          · cases hi
        | none =>
          cases h
          exact ⟨rfl, rfl⟩

theorem sfs_release_disk (st : FsState) (fh : Nat) (x : Int × FsState)
    (h : sfs_release st fh = .ok x) : x.2.disk = st.disk ∧ x.2.sb = st.sb := by
  unfold sfs_release at h
  split at h
  · cases h
    exact ⟨rfl, rfl⟩
  · cases h

/-! ### The claims -/

/-- C1 (the code departs from it): on a volume whose bitmaps have the first
nine bits set, `assign_block` and `assign_inode_number` both return the index 8,
which is not zero and whose bit was already set before the call. -/
theorem C1_assign_returns_a_used_index :
    bitmap_bit nine_used_disk fresh_superblock.data_bitmap_begin 8 = true ∧
    (assign_block fresh_superblock nine_used_disk).map Prod.fst = .ok 8 ∧
    bitmap_bit nine_used_disk fresh_superblock.inode_bitmap_begin 8 = true ∧
    assign_inode_number fresh_superblock nine_used_disk = 8 := by
  decide

/-- C2 (the code departs from it): on every freshly formatted volume there are
free data blocks and bit 2 of the data bitmap is clear, yet `assign_block`
returns 0 and leaves the disk as it was. -/
theorem C2_assign_block_on_fresh_volume (env : Env) (disk : Disk) :
    ∃ st, sfs_init env disk = .ok st ∧ 0 < st.sb.free_data_blocks ∧
      bitmap_bit st.disk st.sb.data_bitmap_begin 2 = false ∧
      assign_block st.sb st.disk = .ok (0, st.disk) := by
  have hfree : 0 < fresh_superblock.free_data_blocks := by decide
  refine ⟨fresh_volume env disk, sfs_init_eq env disk, hfree, ?_,
    assign_block_of_scan_none _ _ (fresh_volume_scan_data env disk)⟩
  show bitmap_bit (fresh_volume env disk).disk 2 2 = false
  cases hb : bitmap_bit (fresh_volume env disk).disk 2 2 with
  | false => rfl
  | true =>
    have := (fresh_volume_data_bit env disk 2 (by decide)).mp hb
    omega

/-- C3 (the code departs from it): on a volume holding a one-block file `f`
whose data block is zero, `sfs_write` of 512 bytes `0x41` at offset 0 returns
512, and the following `sfs_read` of the same range returns 512 and a buffer
whose first and last bytes are 0, not `0x41`; and `sfs_write` of 100 bytes at
offset 0 returns 0. -/
theorem C3_written_bytes_are_not_read_back :
    (write_then_read (sample_volume 1) (cstr "/f") (fun _ => 65) zero_block 512 0).map
        (fun r => (r.1, r.2.1, r.2.2 0, r.2.2 511)) = .ok (512, 512, 0, 0) ∧
    (sfs_write (sample_volume 1) (cstr "/f") (fun _ => 65) 100 0).map
        (fun w => w.retstat) = .ok 0 := by
  decide

/-- C4 (the code departs from it): on every freshly formatted volume
`sfs_create` returns -1 and changes nothing, and `sfs_write` of 1500 bytes to
the path returns -1; on a volume that does hold an empty file `f`, with 31732
free data blocks, `sfs_write` of 1500 bytes at offset 0 returns 0 and the
inode's `blocks_number` stays 0. -/
theorem C4_create_and_write_on_fresh_volume (env : Env) (disk : Disk) (buf : Bytes)
    (mode : Nat) :
    (∃ st, sfs_init env disk = .ok st ∧
      sfs_create env st (cstr "/a") mode = (-1, st) ∧
      sfs_write st (cstr "/a") buf 1500 0 = .ok { retstat := -1, ino := none, st := st }) ∧
    (sfs_write (sample_volume 0) (cstr "/f") (fun _ => 65) 1500 0).map
      (fun w => (w.retstat, w.ino.map inode.blocks_number)) = .ok (0, some 0) := by
  refine ⟨⟨fresh_volume env disk, sfs_init_eq env disk,
    sfs_create_of_scan_none env _ _ mode (fresh_volume_scan_inode env disk),
    sfs_write_of_not_found _ _ _ _ _ ?_⟩, by decide!⟩
  rw [resolute_path_fresh_file env disk (cstr "/a") (by decide)]
  have h : scan_from (fun j =>
          if strcmp_eq root_dir_block (entry_name_off j)
              ((cstr "/a").drop (if (cstr "/a").head? = some 47 then 1 else 0)) then
            some (get_inode_by_inum fresh_superblock (fresh_volume env disk).disk
              (toInt32 (entry_inum root_dir_block j)))
          else none) 4 0 = none := by
    apply scan_from_none
    intro j _ hj
    rw [if_neg]
    have hj4 : j < 4 := by omega
    interval_cases j <;> decide
  rw [h]


/-- C5 (the code departs from it): on a volume holding a file `f` that owns
all 12 blocks, `sfs_write` of 512 bytes at offset `13 * 512` reads
`block_pointers[13]`, outside the array, and `sfs_write` of 512 bytes at offset
`2 ^ 41` returns 512, the full size. -/
theorem C5_write_past_capacity_is_not_short :
    (sfs_write (sample_volume 12) (cstr "/f") (fun _ => 65) 512 (13 * 512)).map
        (fun w => w.retstat) = .error .out_of_bounds ∧
    (sfs_write (sample_volume 12) (cstr "/f") (fun _ => 65) 512 (2 ^ 41)).map
        (fun w => w.retstat) = .ok 512 := by
  decide

/-- C6: after `sfs_init` (32768 blocks of 512 bytes, 4096 inodes) the
superblock in memory has `data_begin = 1034`, `data_blocks = 31734` and
`free_data_blocks = data_blocks - 2 = 31732`, and a bit of the data bitmap is
set exactly when its index is 0 or 1. -/
theorem C6_init_layout_numbers (env : Env) (disk : Disk) :
    ∃ st, sfs_init env disk = .ok st ∧
      st.sb.total_blocks = 32768 ∧ st.sb.data_begin = 1034 ∧ st.sb.data_blocks = 31734 ∧
      st.sb.free_data_blocks = st.sb.data_blocks - 2 ∧ st.sb.free_data_blocks = 31732 ∧
      ∀ i, i < st.sb.data_bitmap_blocks * BLOCK_SIZE * 8 →
        (bitmap_bit st.disk st.sb.data_bitmap_begin i = true ↔ (i = 0 ∨ i = 1)) := by
  have hsb : fresh_superblock.free_data_blocks = fresh_superblock.data_blocks - 2 := by decide
  refine ⟨fresh_volume env disk, sfs_init_eq env disk, rfl, rfl, rfl, hsb, rfl, ?_⟩
  intro i hi
  exact fresh_volume_data_bit env disk i hi

/-- C7: the superblock that `sfs_init` produces lays the regions out one after
the other in the order superblock, inode bitmap, data bitmap, inode table, data
region, each with a non-zero block count, the data region ending at
`total_blocks`; the inode bitmap has at least 4096 bits, the data bitmap at
least `data_blocks` bits, and the inode table at least 4096 slots. -/
theorem C7_init_layout_contiguous (env : Env) (disk : Disk) :
    ∃ st, sfs_init env disk = .ok st ∧
      st.sb.inode_bitmap_begin = 1 ∧
      st.sb.data_bitmap_begin = st.sb.inode_bitmap_begin + st.sb.inode_bitmap_blocks ∧
      st.sb.inode_begin = st.sb.data_bitmap_begin + st.sb.data_bitmap_blocks ∧
      st.sb.data_begin = st.sb.inode_begin + st.sb.inode_blocks ∧
      st.sb.data_begin + st.sb.data_blocks = st.sb.total_blocks ∧
      0 < st.sb.inode_bitmap_blocks ∧ 0 < st.sb.data_bitmap_blocks ∧
      0 < st.sb.inode_blocks ∧ 0 < st.sb.data_blocks ∧
      MAX_FILE_NUMBER ≤ st.sb.inode_bitmap_blocks * BLOCK_SIZE * 8 ∧
      st.sb.data_blocks ≤ st.sb.data_bitmap_blocks * BLOCK_SIZE * 8 ∧
      MAX_FILE_NUMBER ≤ st.sb.inode_blocks * (BLOCK_SIZE / INODE_SIZE) := by
  refine ⟨fresh_volume env disk, sfs_init_eq env disk, ?_⟩
  show fresh_superblock.inode_bitmap_begin = 1 ∧
      fresh_superblock.data_bitmap_begin =
        fresh_superblock.inode_bitmap_begin + fresh_superblock.inode_bitmap_blocks ∧
      fresh_superblock.inode_begin =
        fresh_superblock.data_bitmap_begin + fresh_superblock.data_bitmap_blocks ∧
      fresh_superblock.data_begin = fresh_superblock.inode_begin + fresh_superblock.inode_blocks ∧
      fresh_superblock.data_begin + fresh_superblock.data_blocks =
        fresh_superblock.total_blocks ∧
      0 < fresh_superblock.inode_bitmap_blocks ∧ 0 < fresh_superblock.data_bitmap_blocks ∧
      0 < fresh_superblock.inode_blocks ∧ 0 < fresh_superblock.data_blocks ∧
      MAX_FILE_NUMBER ≤ fresh_superblock.inode_bitmap_blocks * BLOCK_SIZE * 8 ∧
      fresh_superblock.data_blocks ≤ fresh_superblock.data_bitmap_blocks * BLOCK_SIZE * 8 ∧
      MAX_FILE_NUMBER ≤ fresh_superblock.inode_blocks * (BLOCK_SIZE / INODE_SIZE)
  decide

/-- C8 (the code departs from it): on every freshly formatted volume
`resolute_path("/")` returns slot 1 of the inode table, which `sfs_init` filled
from the address of the pointer `ino`: its `inum` is the low 32 bits of that
pointer (so not 1 when the pointer is aligned to 8 bytes), its `type` and
`blocks_number` are the bytes that follow the pointer variable in memory.  The
root inode kept in memory has id 1 and first block 1, and in that directory
block the first entry is `.`, the second `..`, both with inode id 1. -/
theorem C8_root_slot_holds_pointer_bytes (env : Env) (disk : Disk) :
    ∃ st r, sfs_init env disk = .ok st ∧
      resolute_path st.sb st.disk (cstr "/") st.current_dir = .ok (some r) ∧
      inode.inum r = env.ino_ptr % U32 ∧
      (env.ino_ptr % 8 = 0 → inode.inum r ≠ 1) ∧
      inode.type r = load env.mem_after_ino 16 4 ∧
      inode.blocks_number r = load env.mem_after_ino 56 4 ∧
      inode.inum st.current_dir = 1 ∧
      inode.block_pointers st.current_dir 0 = .ok 1 ∧
      entry_inum (st.disk (st.sb.data_begin + 1)) 0 = 1 ∧
      strcmp_eq (st.disk (st.sb.data_begin + 1)) (entry_name_off 0) (cstr ".") = true ∧
      entry_inum (st.disk (st.sb.data_begin + 1)) 1 = 1 ∧
      strcmp_eq (st.disk (st.sb.data_begin + 1)) (entry_name_off 1) (cstr "..") = true := by
  have hdir : (fresh_volume env disk).disk (fresh_superblock.data_begin + 1) = root_dir_block :=
    fresh_volume_dir_block env disk
  have hinum : inode.inum
      (memcpy zero_block 0 ((fresh_volume env disk).disk (10 % U32)) 128 INODE_SIZE)
      = env.ino_ptr % U32 := by
    unfold inode.inum
    rw [load_congr _ (pointer_view env.ino_ptr env.mem_after_ino) 4 inode.OFF_inum
      (fun i _ h2 => fresh_root_record env disk i
        (by simp only [inode.OFF_inum, INODE_SIZE] at *; omega))]
    exact load_pointer_view_low _ _ 4 (by decide)
  refine ⟨fresh_volume env disk, _, sfs_init_eq env disk, resolute_path_fresh_root env disk,
    hinum, ?_, ?_, ?_, init_root_inode_inum env, init_root_inode_block0 env, ?_, ?_, ?_, ?_⟩
  · intro h8
    rw [hinum]
    simp only [U32]
    omega
  · unfold inode.type
    rw [load_congr _ (pointer_view env.ino_ptr env.mem_after_ino) 4 inode.OFF_type
      (fun i _ h2 => fresh_root_record env disk i
        (by simp only [inode.OFF_type, INODE_SIZE] at *; omega))]
    exact load_pointer_view_high _ _ _ 4 (by decide)
  · unfold inode.blocks_number
    rw [load_congr _ (pointer_view env.ino_ptr env.mem_after_ino) 4 inode.OFF_blocks_number
      (fun i _ h2 => fresh_root_record env disk i
        (by simp only [inode.OFF_blocks_number, INODE_SIZE] at *; omega))]
    exact load_pointer_view_high _ _ _ 4 (by decide)
  · show entry_inum ((fresh_volume env disk).disk (fresh_superblock.data_begin + 1)) 0 = 1
    rw [hdir]; decide
  · show strcmp_eq ((fresh_volume env disk).disk (fresh_superblock.data_begin + 1)) _ _ = true
    rw [hdir]; decide
  · show entry_inum ((fresh_volume env disk).disk (fresh_superblock.data_begin + 1)) 1 = 1
    rw [hdir]; decide
  · show strcmp_eq ((fresh_volume env disk).disk (fresh_superblock.data_begin + 1)) _ _ = true
    rw [hdir]; decide


/-- C9: for every inode id `n < 4096` and every record, after the
read-modify-write of slot `n` used in `sfs_create`, `get_inode_by_inum n`
returns the 128 bytes that were written, the other three slots of the same
inode-table block are unchanged, and so is every other block. -/
theorem C9_inode_slot_round_trip (sb : superblock) (disk : Disk) (n : Nat) (rec : inode)
    (h : n < MAX_FILE_NUMBER) :
    (∃ r, get_inode_by_inum sb (write_inode_slot sb disk n rec) (n : Int) = .ok r ∧
      ∀ i, i < INODE_SIZE → r i = rec i) ∧
    (∀ i, i < BLOCK_SIZE → i / INODE_SIZE ≠ n % 4 →
      write_inode_slot sb disk n rec ((sb.inode_begin + n / 4) % U32) i
        = disk ((sb.inode_begin + n / 4) % U32) i) ∧
    (∀ b, b ≠ (sb.inode_begin + n / 4) % U32 → write_inode_slot sb disk n rec b = disk b) := by
  refine ⟨⟨_, get_inode_by_inum_nat sb _ n h, ?_⟩, ?_, ?_⟩
  · intro i hi
    rw [write_inode_slot_apply sb disk n rec h, if_pos rfl]
    simp only [memcpy, INODE_SIZE] at hi ⊢
    rw [if_pos (by omega), if_pos (by omega)]
    congr 1
    omega
  · intro i hi hne
    rw [write_inode_slot_apply sb disk n rec h, if_pos rfl]
    simp only [memcpy, INODE_SIZE, BLOCK_SIZE] at hi hne ⊢
    rw [if_neg]
    omega
  · intro b hb
    rw [write_inode_slot_apply sb disk n rec h, if_neg hb]

/-- C9 at inode id 5, on an empty disk. -/
theorem C9_inode_slot_round_trip_witness :
    5 < MAX_FILE_NUMBER ∧
    ((∃ r, get_inode_by_inum fresh_superblock
        (write_inode_slot fresh_superblock (fun _ => zero_block) 5 (sample_inode 3)) (5 : Nat) = .ok r ∧
      ∀ i, i < INODE_SIZE → r i = sample_inode 3 i) ∧
    (∀ i, i < BLOCK_SIZE → i / INODE_SIZE ≠ 5 % 4 →
      write_inode_slot fresh_superblock (fun _ => zero_block) 5 (sample_inode 3)
          ((fresh_superblock.inode_begin + 5 / 4) % U32) i
        = (fun _ => zero_block : Disk) ((fresh_superblock.inode_begin + 5 / 4) % U32) i) ∧
    (∀ b, b ≠ (fresh_superblock.inode_begin + 5 / 4) % U32 →
      write_inode_slot fresh_superblock (fun _ => zero_block) 5 (sample_inode 3) b
        = (fun _ => zero_block : Disk) b)) :=
  ⟨by decide, C9_inode_slot_round_trip fresh_superblock (fun _ => zero_block) 5 (sample_inode 3)
    (by decide)⟩


/-- C10: from a handle table with all 100 slots free and the cursor at 0, one
hundred consecutive `sfs_open` calls on a path that resolves to a file (an
inode whose id is not 0, the value that marks a free slot) return 0 with the
handles 0, 1, ..., 99, and the next `sfs_open` returns -1, sets no handle and
leaves the state unchanged. -/
theorem C10_hundred_opens_then_failure (env : Env) (st : FsState) (path : List Nat)
    (ino : inode)
    (hres : resolute_path st.sb st.disk path st.current_dir = .ok (some ino))
    (hid : inode.inum ino ≠ 0)
    (hfree : ∀ i, i < MAX_OPENED_FILES → (st.opened_files i).inum = 0)
    (hcur : st.fh_cursor = 0) :
    ∃ st100, open_repeatedly env path 100 st =
        .ok ((List.range 100).map (fun k => ((0 : Int), some k)), st100) ∧
      sfs_open env st100 path = .ok { retstat := -1, fh := none, st := st100 } := by
  refine ⟨after_opens env st (inode.inum ino) MAX_OPENED_FILES, ?_,
    sfs_open_full env st path ino hres hid⟩
  have h := open_repeatedly_spec env st path ino hres hfree 100 0 (by decide)
  rw [after_opens_zero env st _ hcur] at h
  rw [h, List.range_eq_range']

/-- C10 on the volume that holds the file `f` with inode id 2. -/
theorem C10_hundred_opens_then_failure_witness :
    resolute_path (sample_volume 1).sb (sample_volume 1).disk (cstr "/f")
        (sample_volume 1).current_dir
      = .ok (some (memcpy zero_block 0 ((sample_volume 1).disk 10) 256 INODE_SIZE)) ∧
    inode.inum (memcpy zero_block 0 ((sample_volume 1).disk 10) 256 INODE_SIZE) ≠ 0 ∧
    (∀ i, i < MAX_OPENED_FILES → ((sample_volume 1).opened_files i).inum = 0) ∧
    (sample_volume 1).fh_cursor = 0 ∧
    ∃ st100, open_repeatedly sample_env (cstr "/f") 100 (sample_volume 1) =
        .ok ((List.range 100).map (fun k => ((0 : Int), some k)), st100) ∧
      sfs_open sample_env st100 (cstr "/f") = .ok { retstat := -1, fh := none, st := st100 } :=
  have h1 : resolute_path (sample_volume 1).sb (sample_volume 1).disk (cstr "/f")
        (sample_volume 1).current_dir
      = .ok (some (memcpy zero_block 0 ((sample_volume 1).disk 10) 256 INODE_SIZE)) := by
    rfl
  have h2 : inode.inum (memcpy zero_block 0 ((sample_volume 1).disk 10) 256 INODE_SIZE) ≠ 0 := by
    decide
  have h3 : ∀ i, i < MAX_OPENED_FILES → ((sample_volume 1).opened_files i).inum = 0 :=
    fun i _ => init_opened_files_inum _ (fun _ => rfl) _ i
  ⟨h1, h2, h3, rfl, C10_hundred_opens_then_failure sample_env (sample_volume 1) (cstr "/f") _
    h1 h2 h3 rfl⟩

/-- C11 (the code departs from it): after one hundred opens of `/f`, the
release of handle 10 and one more open of `/f`, no slot is free, slot 0 holds
inode id 2 and the cursor is 11; the next `sfs_open`, of `/`, returns 0 with
handle 0, whose slot was occupied, and puts inode id 1 in it. -/
theorem C11_open_takes_an_occupied_slot :
    (run_calls sample_env calls_until_full (sample_volume 1)).map
      (fun p => (free_slots p.2, (p.2.opened_files 0).inum, p.2.fh_cursor)) = .ok ([], 2, 11) ∧
    (run_calls sample_env calls_until_full (sample_volume 1)).bind (fun p =>
      (sfs_open sample_env p.2 (cstr "/")).map (fun r =>
        (r.retstat, r.fh, (r.st.opened_files 0).inum))) = .ok (0, some 0, 1) := by
  decide!

/-- C12 (the code departs from it): with no slot free and the cursor at 11,
`sfs_open` of `/f` succeeds, with handle 0; with the slots 0 to 5 free and the
cursor at 6, `sfs_open` of `/f` returns -1. -/
theorem C12_open_failure_is_not_table_full :
    (run_calls sample_env calls_until_full (sample_volume 1)).bind (fun p =>
      (sfs_open sample_env p.2 (cstr "/f")).map (fun r =>
        (free_slots p.2, p.2.fh_cursor, r.retstat, r.fh))) = .ok ([], 11, 0, some 0) ∧
    (run_calls sample_env calls_until_six_free (sample_volume 1)).bind (fun p =>
      (sfs_open sample_env p.2 (cstr "/f")).map (fun r =>
        (free_slots p.2, p.2.fh_cursor, r.retstat, r.fh)))
      = .ok ([0, 1, 2, 3, 4, 5], 6, -1, none) := by
  decide!

/-- C13: for every handle `h < 100`, `sfs_release` returns 0, sets the inode id
of slot `h` to 0, changes no other slot and not the cursor, and a second
release of `h` returns the same state again. -/
theorem C13_release_frees_one_slot (st : FsState) (h : Nat) (hh : h < MAX_OPENED_FILES) :
    ∃ st1, sfs_release st h = .ok (0, st1) ∧
      (st1.opened_files h).inum = 0 ∧
      (∀ k, k ≠ h → st1.opened_files k = st.opened_files k) ∧
      st1.fh_cursor = st.fh_cursor ∧
      sfs_release st1 h = .ok (0, st1) := by
  unfold sfs_release
  simp only [hh, if_true]
  refine ⟨_, rfl, by simp, ?_, rfl, ?_⟩
  · intro k hk
    simp [hk]
  · congr 2
    congr 1
    funext k
    by_cases hk : k = h
    · simp [hk]
    · simp [hk]

/-- C13 at handle 7 of the sample volume. -/
theorem C13_release_frees_one_slot_witness :
    7 < MAX_OPENED_FILES ∧
    ∃ st1, sfs_release (sample_volume 1) 7 = .ok (0, st1) ∧
      (st1.opened_files 7).inum = 0 ∧
      (∀ k, k ≠ 7 → st1.opened_files k = (sample_volume 1).opened_files k) ∧
      st1.fh_cursor = (sample_volume 1).fh_cursor ∧
      sfs_release st1 7 = .ok (0, st1) :=
  ⟨by decide, C13_release_frees_one_slot (sample_volume 1) 7 (by decide)⟩

/-- C14 (the code departs from it): on the sample volume the path `/nosuch`
resolves to no entry; `sfs_getattr` then dereferences the `NULL` result, while
`sfs_open`, `sfs_read` and `sfs_write` return -1 and leave the state and the
caller's buffer unchanged. -/
theorem C14_getattr_dereferences_null :
    resolute_path (sample_volume 1).sb (sample_volume 1).disk (cstr "/nosuch")
      (sample_volume 1).current_dir = .ok none ∧
    sfs_getattr (sample_volume 1) (cstr "/nosuch") ⟨0, 0, 0, 0, 0, 0, 0, 0, 0, 0⟩
      = .error .null_pointer ∧
    sfs_open sample_env (sample_volume 1) (cstr "/nosuch")
      = .ok { retstat := -1, fh := none, st := sample_volume 1 } ∧
    sfs_read (sample_volume 1) (cstr "/nosuch") zero_block 10 0 = .ok (-1, zero_block) ∧
    sfs_write (sample_volume 1) (cstr "/nosuch") zero_block 10 0
      = .ok { retstat := -1, ino := none, st := sample_volume 1 } :=
  have h : resolute_path (sample_volume 1).sb (sample_volume 1).disk (cstr "/nosuch")
      (sample_volume 1).current_dir = .ok none := by rfl
  ⟨h, not_found_results sample_env (sample_volume 1) (cstr "/nosuch")
    ⟨0, 0, 0, 0, 0, 0, 0, 0, 0, 0⟩ zero_block 10 0 h⟩

/-- C15 (the code departs from it): on a volume whose inode bitmap has the
first nine bits set, `assign_inode_number` returns 8; `sfs_create` returns 0
and writes slot 8 (id 8, mode 420); a second `sfs_create` returns 0 and writes
slot 8 again (id 8, mode 384). -/
theorem C15_two_creates_share_an_id :
    assign_inode_number nine_used_volume.sb nine_used_volume.disk = 8 ∧
    (sfs_create sample_env nine_used_volume (cstr "/a") 420).1 = 0 ∧
    (get_inode_by_inum nine_used_volume.sb
        (sfs_create sample_env nine_used_volume (cstr "/a") 420).2.disk 8).map
      (fun r => (inode.inum r, inode.mode r)) = .ok (8, 420) ∧
    (sfs_create sample_env (sfs_create sample_env nine_used_volume (cstr "/a") 420).2
        (cstr "/b") 384).1 = 0 ∧
    (get_inode_by_inum nine_used_volume.sb
        (sfs_create sample_env (sfs_create sample_env nine_used_volume (cstr "/a") 420).2
          (cstr "/b") 384).2.disk 8).map
      (fun r => (inode.inum r, inode.mode r)) = .ok (8, 384) := by
  decide!

/-- C16 (the code departs from it): on a volume with 31725 free data blocks
whose file `f` owns no block, `sfs_write` of 512 bytes returns 512 and grows
the file to one block, and `free_data_blocks` is 31725 afterwards as well. -/
theorem C16_growth_keeps_the_free_count :
    growable_volume.sb.free_data_blocks = 31725 ∧
    (sfs_write growable_volume (cstr "/f") (fun _ => 65) 512 0).map
      (fun w => (w.retstat, w.ino.map inode.blocks_number, w.st.sb.free_data_blocks))
      = .ok (512, some 1, 31725) := by
  decide!

/-- C17 (the code departs from it): on the same volume `sfs_write` of 512
bytes returns 512 and the inode it holds in memory has `blocks_number = 1` and
`block_pointers[0] = 8`, but `get_inode_by_inum 2` on the disk afterwards still
returns `blocks_number = 0` and `block_pointers[0] = 0`. -/
theorem C17_growth_is_not_written_back :
    (sfs_write growable_volume (cstr "/f") (fun _ => 65) 512 0).map (fun w =>
      (w.retstat, w.ino.map (fun i => (inode.blocks_number i, inode.block_pointers i 0))))
      = .ok (512, some (1, .ok 8)) ∧
    (sfs_write growable_volume (cstr "/f") (fun _ => 65) 512 0).bind (fun w =>
      (get_inode_by_inum w.st.sb w.st.disk 2).map (fun r =>
        (inode.inum r, inode.blocks_number r, inode.block_pointers r 0)))
      = .ok (2, 0, .ok 0) := by
  decide!

/-- C18 (the code departs from it): on a one-block file `sfs_read` of 100
bytes at offset 0 returns 0, and on a two-block file `sfs_read` of 600 bytes at
offset 100 returns 412. -/
theorem C18_read_stops_before_a_partial_block :
    (sfs_read (sample_volume 1) (cstr "/f") zero_block 100 0).map Prod.fst = .ok 0 ∧
    (sfs_read (sample_volume 2) (cstr "/f") zero_block 600 100).map Prod.fst = .ok 412 := by
  decide!

/-- C19: for either bitmap and every index whose bitmap block lies in the
region, `update_bitmap` returns a disk on which the bit of the index (mask
`0x80 >> (index % 8)` of byte `index / 8 % 512` of block
`begin + index / 8 / 512`) is set, the bit of every other index reads as before,
every byte but that one is unchanged on the whole disk, and a second call with
the same index returns the same disk. -/
theorem C19_update_bitmap_sets_one_bit (sb : superblock) (disk : Disk) (index mode : Nat)
    (hmode : mode = INODE_BITMAP_UPDATE ∨ mode = DATA_BITMAP_UPDATE)
    (hin : index / 8 / BLOCK_SIZE < bitmap_blocks sb mode) :
    ∃ disk', update_bitmap sb disk index mode = .ok disk' ∧
      bitmap_bit disk' (bitmap_begin sb mode) index = true ∧
      (∀ j, j ≠ index →
        bitmap_bit disk' (bitmap_begin sb mode) j = bitmap_bit disk (bitmap_begin sb mode) j) ∧
      (∀ b i, ¬ (b = bitmap_begin sb mode + index / 8 / BLOCK_SIZE ∧
          i = index / 8 % BLOCK_SIZE) → disk' b i = disk b i) ∧
      update_bitmap sb disk' index mode = .ok disk' := by
  refine ⟨_, update_bitmap_eq sb disk index mode hmode hin, bitmap_bit_set_self _ _ _,
    fun j hj => bitmap_bit_set_other _ _ _ j hj, ?_, ?_⟩
  · intro b i hbi
    rw [bitmap_set_apply]
    by_cases hb : b = bitmap_begin sb mode + index / 8 / BLOCK_SIZE
    · rw [if_pos hb]
      have hi : i ≠ index / 8 % BLOCK_SIZE := fun hi => hbi ⟨hb, hi⟩
      simp only [hi, if_false, hb]
    · rw [if_neg hb]
  · rw [update_bitmap_eq sb _ index mode hmode hin,
      bitmap_set_idem _ _ _ _ (Nat.mod_lt _ (by decide))]

/-- C19 at index 20 of the data bitmap. -/
theorem C19_update_bitmap_sets_one_bit_witness :
    (DATA_BITMAP_UPDATE = INODE_BITMAP_UPDATE ∨ DATA_BITMAP_UPDATE = DATA_BITMAP_UPDATE) ∧
    20 / 8 / BLOCK_SIZE < bitmap_blocks fresh_superblock DATA_BITMAP_UPDATE ∧
    ∃ disk', update_bitmap fresh_superblock nine_used_disk 20 DATA_BITMAP_UPDATE = .ok disk' ∧
      bitmap_bit disk' (bitmap_begin fresh_superblock DATA_BITMAP_UPDATE) 20 = true ∧
      (∀ j, j ≠ 20 →
        bitmap_bit disk' (bitmap_begin fresh_superblock DATA_BITMAP_UPDATE) j
          = bitmap_bit nine_used_disk (bitmap_begin fresh_superblock DATA_BITMAP_UPDATE) j) ∧
      (∀ b i, ¬ (b = bitmap_begin fresh_superblock DATA_BITMAP_UPDATE + 20 / 8 / BLOCK_SIZE ∧
          i = 20 / 8 % BLOCK_SIZE) → disk' b i = nine_used_disk b i) ∧
      update_bitmap fresh_superblock disk' 20 DATA_BITMAP_UPDATE = .ok disk' :=
  ⟨Or.inr rfl, by decide,
    C19_update_bitmap_sets_one_bit fresh_superblock nine_used_disk 20 DATA_BITMAP_UPDATE
      (Or.inr rfl) (by decide)⟩

/-- C20: for either bitmap, `update_bitmap` aborts exactly when
`index / 8 / 512` is at least the block count of the bitmap, and otherwise
returns a disk; the abort comes before any block is read or written, so
the failing call yields no new disk. -/
theorem C20_update_bitmap_aborts_iff (sb : superblock) (disk : Disk) (index mode : Nat)
    (hmode : mode = INODE_BITMAP_UPDATE ∨ mode = DATA_BITMAP_UPDATE) :
    (update_bitmap sb disk index mode = .error .abort ↔
      index / 8 / BLOCK_SIZE ≥ bitmap_blocks sb mode) ∧
    (index / 8 / BLOCK_SIZE < bitmap_blocks sb mode →
      ∃ disk', update_bitmap sb disk index mode = .ok disk') := by
  constructor
  · constructor
    · intro h
      by_contra hlt
      rw [update_bitmap_eq sb disk index mode hmode (by omega)] at h
      cases h
    · intro hge
      unfold update_bitmap
      rcases hmode with h | h
      · subst h
        simp only [bitmap_blocks, if_true] at hge ⊢
        rw [if_pos hge]
      · subst h
        simp only [bitmap_blocks, DATA_BITMAP_UPDATE, INODE_BITMAP_UPDATE,
          one_ne_zero, if_false, if_true] at hge ⊢
        rw [if_pos hge]
  · intro hlt
    exact ⟨_, update_bitmap_eq sb disk index mode hmode hlt⟩

/-- C20 at index 4096 of the inode bitmap, one past its single block. -/
theorem C20_update_bitmap_aborts_iff_witness :
    (INODE_BITMAP_UPDATE = INODE_BITMAP_UPDATE ∨ INODE_BITMAP_UPDATE = DATA_BITMAP_UPDATE) ∧
    ((update_bitmap fresh_superblock nine_used_disk 4096 INODE_BITMAP_UPDATE = .error .abort ↔
      4096 / 8 / BLOCK_SIZE ≥ bitmap_blocks fresh_superblock INODE_BITMAP_UPDATE) ∧
    (4096 / 8 / BLOCK_SIZE < bitmap_blocks fresh_superblock INODE_BITMAP_UPDATE →
      ∃ disk', update_bitmap fresh_superblock nine_used_disk 4096 INODE_BITMAP_UPDATE
        = .ok disk')) :=
  ⟨Or.inl rfl,
    C20_update_bitmap_aborts_iff fresh_superblock nine_used_disk 4096 INODE_BITMAP_UPDATE
      (Or.inl rfl)⟩

/-- C21 (the code departs from it): in a directory whose entry `g` stores the
inode id `0xFFFFFFFC`, `retrieve_file` of `g` does not abort: it returns the
first 128 bytes of block 9, the block before the inode table at block 10, as
the inode, whose `inum` then reads 128. -/
theorem C21_id_above_int_max_is_not_refused :
    entry_inum (wild_id_volume.disk 1035) 3 = 4294967292 ∧
    strcmp_eq (wild_id_volume.disk 1035) (entry_name_off 3) (cstr "g") = true ∧
    (retrieve_file wild_id_volume.sb wild_id_volume.disk (cstr "g")
        wild_id_volume.current_dir).map (Option.map inode.inum) = .ok (some 128) ∧
    wild_id_volume.sb.inode_begin = 10 ∧
    inode.inum (wild_id_volume.disk 9) = 128 := by
  decide!

/-- C22: for every path other than exactly `/`, `resolute_path` equals
`retrieve_file` of the path with one leading `/` removed if present and of the
path itself otherwise; and for every name that does not start with `/` and is
not empty, so that `/` followed by the name is a path other than `/`,
`resolute_path` of `/` followed by the name equals `resolute_path` of the name,
which is `retrieve_file` of the whole name, other separators included. -/
theorem C22_resolute_path_strips_one_separator (sb : superblock) (disk : Disk) (cd : inode)
    (path name : List Nat)
    (hp : path ≠ cstr "/") (hn : name ≠ []) (hs : name.head? ≠ some 47) :
    resolute_path sb disk path cd = retrieve_file sb disk (strip_separator path) cd ∧
    resolute_path sb disk (cstr "/" ++ name) cd = resolute_path sb disk name cd ∧
    resolute_path sb disk name cd = retrieve_file sb disk name cd := by
  have h1 : cstr "/" ++ name ≠ cstr "/" := by
    cases name with
    | nil => exact absurd rfl hn
    | cons c cs =>
      intro h
      have := congrArg List.length h
      simp [cstr] at this
  have h2 : name ≠ cstr "/" := by
    intro h
    rw [h] at hs
    exact hs (by decide)
  have h3 : strip_separator (cstr "/" ++ name) = name := by
    show strip_separator (47 :: name) = name
    rfl
  have h4 : strip_separator name = name := by
    cases name with
    | nil => rfl
    | cons c cs =>
      have hc : c ≠ 47 := by simpa using hs
      unfold strip_separator
      split
      · rename_i heq
        simp at heq
        exact absurd heq.1 hc
      · rfl
  refine ⟨resolute_path_eq_retrieve sb disk path cd hp, ?_, ?_⟩
  · rw [resolute_path_eq_retrieve sb disk _ cd h1, resolute_path_eq_retrieve sb disk _ cd h2,
      h3, h4]
  · rw [resolute_path_eq_retrieve sb disk _ cd h2, h4]

/-- C22 at the path `/a/b`, whose name is the flat name `a/b`, on the
sample volume. -/
theorem C22_resolute_path_strips_one_separator_witness :
    cstr "/a/b" ≠ cstr "/" ∧ cstr "a/b" ≠ [] ∧ (cstr "a/b").head? ≠ some 47 ∧
    strip_separator (cstr "/a/b") = cstr "a/b" ∧
    (resolute_path (sample_volume 1).sb (sample_volume 1).disk (cstr "/a/b")
          (sample_volume 1).current_dir
        = retrieve_file (sample_volume 1).sb (sample_volume 1).disk
          (strip_separator (cstr "/a/b")) (sample_volume 1).current_dir ∧
      resolute_path (sample_volume 1).sb (sample_volume 1).disk (cstr "/" ++ cstr "a/b")
          (sample_volume 1).current_dir
        = resolute_path (sample_volume 1).sb (sample_volume 1).disk (cstr "a/b")
          (sample_volume 1).current_dir ∧
      resolute_path (sample_volume 1).sb (sample_volume 1).disk (cstr "a/b")
          (sample_volume 1).current_dir
        = retrieve_file (sample_volume 1).sb (sample_volume 1).disk (cstr "a/b")
          (sample_volume 1).current_dir) :=
  ⟨by decide, by decide, by decide, by decide,
    C22_resolute_path_strips_one_separator (sample_volume 1).sb (sample_volume 1).disk
      (sample_volume 1).current_dir (cstr "/a/b") (cstr "a/b")
      (by decide) (by decide) (by decide)⟩

/-- C23: for every directory inode that owns at most twelve blocks and every
name, `retrieve_file` is the lookup of the first slot, in pointer order and in
each block in entry order, whose name equals the given name under `strcmp`,
followed by `get_inode_by_inum` on the id stored in that slot; and it returns
`NULL` exactly when no entry of an owned block has that name. -/
theorem C23_retrieve_file_returns_first_match (sb : superblock) (disk : Disk)
    (name : List Nat) (dir : inode)
    (hb : inode.blocks_number dir ≤ MAX_BLOCKS_OF_FILE) :
    (retrieve_file sb disk name dir =
      match first_match sb disk name dir with
      | none => .ok none
      | some s =>
        (get_inode_by_inum sb disk
          (toInt32 (entry_inum (owned_block sb disk dir s.1) s.2))).map some) ∧
    (retrieve_file sb disk name dir = .ok none ↔
      ∀ i, i < inode.blocks_number dir → ∀ j, j < 4 →
        strcmp_eq (owned_block sb disk dir i) (entry_name_off j) name = false) :=
  ⟨retrieve_file_eq_first_match sb disk name dir hb,
    retrieve_file_not_found_iff sb disk name dir hb⟩

/-- C23 on the root directory of the sample volume: the name `f` is first
matched by entry 2 of block 0, and the name `F` by no entry. -/
theorem C23_retrieve_file_returns_first_match_witness :
    inode.blocks_number (sample_volume 1).current_dir ≤ MAX_BLOCKS_OF_FILE ∧
    first_match (sample_volume 1).sb (sample_volume 1).disk (cstr "f")
      (sample_volume 1).current_dir = some (0, 2) ∧
    first_match (sample_volume 1).sb (sample_volume 1).disk (cstr "F")
      (sample_volume 1).current_dir = none ∧
    ((retrieve_file (sample_volume 1).sb (sample_volume 1).disk (cstr "f")
        (sample_volume 1).current_dir =
      match first_match (sample_volume 1).sb (sample_volume 1).disk (cstr "f")
          (sample_volume 1).current_dir with
      | none => .ok none
      | some s =>
        (get_inode_by_inum (sample_volume 1).sb (sample_volume 1).disk
          (toInt32 (entry_inum (owned_block (sample_volume 1).sb (sample_volume 1).disk
            (sample_volume 1).current_dir s.1) s.2))).map some) ∧
    (retrieve_file (sample_volume 1).sb (sample_volume 1).disk (cstr "f")
        (sample_volume 1).current_dir = .ok none ↔
      ∀ i, i < inode.blocks_number (sample_volume 1).current_dir → ∀ j, j < 4 →
        strcmp_eq (owned_block (sample_volume 1).sb (sample_volume 1).disk
          (sample_volume 1).current_dir i) (entry_name_off j) (cstr "f") = false)) :=
  ⟨by decide, by decide!, by decide!,
    C23_retrieve_file_returns_first_match (sample_volume 1).sb (sample_volume 1).disk (cstr "f")
      (sample_volume 1).current_dir (by decide)⟩

/-- C24: on a volume whose bitmaps lie before the inode table, every bit that
is 1 in the inode bitmap or the data bitmap is still 1 after `update_bitmap`,
`assign_block`, `sfs_create`, `sfs_open`, `sfs_release`, `sfs_write`,
`sfs_unlink` and `sfs_rmdir`, and the superblock that locates the bitmaps is
the same; `assign_inode_number` and `sfs_read` return no disk at all. -/
theorem C24_set_bits_stay_set (env : Env) (st : FsState) (path : List Nat) (buf : Bytes)
    (size offset mode index space fh : Nat)
    (h1 : st.sb.inode_bitmap_begin + st.sb.inode_bitmap_blocks ≤ st.sb.inode_begin)
    (h2 : st.sb.data_bitmap_begin + st.sb.data_bitmap_blocks ≤ st.sb.inode_begin)
    (h3 : st.sb.inode_begin + 1073741824 ≤ U32) :
    (∀ d, update_bitmap st.sb st.disk index space = .ok d → bitmaps_kept st.sb st.disk d) ∧
    (∀ ret d, assign_block st.sb st.disk = .ok (ret, d) → bitmaps_kept st.sb st.disk d) ∧
    keeps_bitmaps st (sfs_create env st path mode).2 ∧
    (∀ r, sfs_open env st path = .ok r → keeps_bitmaps st r.st) ∧
    (∀ x, sfs_release st fh = .ok x → keeps_bitmaps st x.2) ∧
    (∀ w, sfs_write st path buf size offset = .ok w → keeps_bitmaps st w.st) ∧
    keeps_bitmaps st (sfs_unlink st path).2 ∧
    keeps_bitmaps st (sfs_rmdir st path).2 := by
  refine ⟨?_, ?_, ⟨?_, sfs_create_bitmaps_kept env st path mode h1 h2 h3⟩, ?_, ?_, ?_,
    ⟨rfl, bitmaps_kept_of_eq _ _ _ rfl⟩, ⟨rfl, bitmaps_kept_of_eq _ _ _ rfl⟩⟩
  · intro d h
    exact bitmaps_kept_of_bits_kept _ _ _ (update_bitmap_bits_kept _ _ _ _ _ h)
  · intro ret d h
    exact bitmaps_kept_of_bits_kept _ _ _ (assign_block_bits_kept _ _ _ _ h)
  · unfold sfs_create
    simp only
    split <;> rfl
  · intro r h
    obtain ⟨hd, hs⟩ := sfs_open_disk env st path r h
    exact ⟨hs, bitmaps_kept_of_eq _ _ _ hd⟩
  · intro x h
    obtain ⟨hd, hs⟩ := sfs_release_disk st fh x h
    exact ⟨hs, bitmaps_kept_of_eq _ _ _ hd⟩
  · intro w h
    exact ⟨(sfs_write_sb st path buf size offset w h).1,
      bitmaps_kept_of_bits_kept _ _ _ (sfs_write_bits_kept st path buf size offset w h)⟩

/-- C24 on the volume whose file `f` owns no block yet, where `assign_block`
returns 8 and `sfs_write` of 512 bytes grows the file. -/
theorem C24_set_bits_stay_set_witness :
    growable_volume.sb.inode_bitmap_begin + growable_volume.sb.inode_bitmap_blocks
      ≤ growable_volume.sb.inode_begin ∧
    growable_volume.sb.data_bitmap_begin + growable_volume.sb.data_bitmap_blocks
      ≤ growable_volume.sb.inode_begin ∧
    growable_volume.sb.inode_begin + 1073741824 ≤ U32 ∧
    (assign_block growable_volume.sb growable_volume.disk).map Prod.fst = .ok 8 ∧
    (sfs_write growable_volume (cstr "/f") (fun _ => 65) 512 0).map (fun w => w.retstat)
      = .ok 512 ∧
    ((∀ d, update_bitmap growable_volume.sb growable_volume.disk 20 DATA_BITMAP_UPDATE = .ok d →
      bitmaps_kept growable_volume.sb growable_volume.disk d) ∧
    (∀ ret d, assign_block growable_volume.sb growable_volume.disk = .ok (ret, d) →
      bitmaps_kept growable_volume.sb growable_volume.disk d) ∧
    keeps_bitmaps growable_volume (sfs_create sample_env growable_volume (cstr "/a") 420).2 ∧
    (∀ r, sfs_open sample_env growable_volume (cstr "/f") = .ok r →
      keeps_bitmaps growable_volume r.st) ∧
    (∀ x, sfs_release growable_volume 3 = .ok x → keeps_bitmaps growable_volume x.2) ∧
    (∀ w, sfs_write growable_volume (cstr "/f") (fun _ => 65) 512 0 = .ok w →
      keeps_bitmaps growable_volume w.st) ∧
    keeps_bitmaps growable_volume (sfs_unlink growable_volume (cstr "/f")).2 ∧
    keeps_bitmaps growable_volume (sfs_rmdir growable_volume (cstr "/f")).2) :=
  ⟨by decide, by decide, by decide, by decide!, by decide!,
    C24_set_bits_stay_set sample_env growable_volume (cstr "/f") (fun _ => 65) 512 0 420 20
      DATA_BITMAP_UPDATE 3 (by decide) (by decide) (by decide)⟩

/-- C25 (as stated it fails): after `sfs_init` entry 2 of the root directory
block is all zero, and `retrieve_file` and `resolute_path` of the empty path do
not return `NULL`: they return inode slot 0, whose id reads 0. -/
theorem C25_empty_name_matches_an_unused_slot :
    (sfs_init sample_env (fun _ => zero_block)).map
        (fun st => decide (unused_slot (st.disk (st.sb.data_begin + 1)) 2)) = .ok true ∧
    (sfs_init sample_env (fun _ => zero_block)).bind (fun st =>
        (resolute_path st.sb st.disk (cstr "") st.current_dir).map
          (Option.map inode.inum)) = .ok (some 0) ∧
    (sfs_init sample_env (fun _ => zero_block)).bind (fun st =>
        (retrieve_file st.sb st.disk (cstr "") st.current_dir).map Option.isSome)
      = .ok true := by
  decide!

/-- C25 (amended): for every name that is not empty (a C string, so without
a NUL inside) the test of `retrieve_file` fails on every unused slot, so an
inode that `retrieve_file` returns comes from a matching slot of an owned block
that is not unused; and on a freshly formatted volume `resolute_path` returns
`NULL` for every path other than `/` whose name is not `.` or `..`. -/
theorem C25_nonempty_name_skips_unused_slots (env : Env) (sb : superblock)
    (disk disk0 : Disk) (dir : inode)
    (name : List Nat) (hne : name ≠ []) (h0 : 0 ∉ name) :
    (∀ buf j, unused_slot buf j → strcmp_eq buf (entry_name_off j) name = false) ∧
    (∀ r, retrieve_file sb disk name dir = .ok (some r) →
      ∃ i j, i < inode.blocks_number dir ∧ j < 4 ∧
        strcmp_eq (owned_block sb disk dir i) (entry_name_off j) name = true ∧
        ¬ unused_slot (owned_block sb disk dir i) j ∧
        get_inode_by_inum sb disk
          (toInt32 (entry_inum (owned_block sb disk dir i) j)) = .ok r) ∧
    (name ≠ cstr "." → name ≠ cstr ".." →
      ∃ st, sfs_init env disk0 = .ok st ∧
        ∀ path, path ≠ cstr "/" → strip_separator path = name →
          resolute_path st.sb st.disk path st.current_dir = .ok none) := by
  refine ⟨fun buf j hu => strcmp_eq_unused buf j name hne h0 hu, ?_, ?_⟩
  · intro r hr
    obtain ⟨i, j, hi, _, hj, hm, hg, _⟩ := retrieve_file_some sb disk name dir r hr
    refine ⟨i, j, hi, hj, hm, ?_, hg⟩
    intro hu
    rw [strcmp_eq_unused _ j name hne h0 hu] at hm
    cases hm
  · intro h1 h2
    refine ⟨fresh_volume env disk0, sfs_init_eq env disk0, ?_⟩
    intro path hp hs
    exact resolute_path_fresh_not_found env disk0 path hp (by rw [hs]; exact hne)
      (by rw [hs]; exact h0) (by rw [hs]; exact h1) (by rw [hs]; exact h2)

/-- C25 (amended) at the name `f`, on the sample volume and on the volume that
`sfs_init` builds from a zeroed disk. -/
theorem C25_nonempty_name_skips_unused_slots_witness :
    cstr "f" ≠ [] ∧ 0 ∉ cstr "f" ∧
    ((∀ buf j, unused_slot buf j → strcmp_eq buf (entry_name_off j) (cstr "f") = false) ∧
    (∀ r, retrieve_file (sample_volume 1).sb (sample_volume 1).disk (cstr "f")
        (sample_volume 1).current_dir = .ok (some r) →
      ∃ i j, i < inode.blocks_number (sample_volume 1).current_dir ∧ j < 4 ∧
        strcmp_eq (owned_block (sample_volume 1).sb (sample_volume 1).disk
          (sample_volume 1).current_dir i) (entry_name_off j) (cstr "f") = true ∧
        ¬ unused_slot (owned_block (sample_volume 1).sb (sample_volume 1).disk
          (sample_volume 1).current_dir i) j ∧
        get_inode_by_inum (sample_volume 1).sb (sample_volume 1).disk
          (toInt32 (entry_inum (owned_block (sample_volume 1).sb (sample_volume 1).disk
            (sample_volume 1).current_dir i) j)) = .ok r) ∧
    (cstr "f" ≠ cstr "." → cstr "f" ≠ cstr ".." →
      ∃ st, sfs_init sample_env (fun _ => zero_block) = .ok st ∧
        ∀ path, path ≠ cstr "/" → strip_separator path = cstr "f" →
          resolute_path st.sb st.disk path st.current_dir = .ok none)) :=
  ⟨by decide, by decide,
    C25_nonempty_name_skips_unused_slots sample_env (sample_volume 1).sb (sample_volume 1).disk (fun _ => zero_block)
      (sample_volume 1).current_dir (cstr "f") (by decide) (by decide)⟩

/-- C26: when the path resolves to an inode of at most twelve blocks,
`sfs_read` returns for every size and offset; its count is the sum of the
lengths of the passes through the loop body and lies between 0 and `size`; the
buffer returned is the zeroed buffer with the passes applied in order; and
every pass copies from inside the 512-byte block buffer to inside the first
`size` bytes of the caller's buffer and reads a block pointer whose index is
below `blocks_number`.  The function returns no disk, superblock or handle
table. -/
theorem C26_read_stays_in_bounds (st : FsState) (path : List Nat) (buf : Bytes) (size offset : Nat)
    (ino : inode)
    (hres : resolute_path st.sb st.disk path st.current_dir = .ok (some ino))
    (hb : inode.blocks_number ino ≤ MAX_BLOCKS_OF_FILE) :
    ∃ (c : Int) (out : Bytes), sfs_read st path buf size offset = .ok (c, out) ∧
      0 ≤ c ∧ c ≤ (size : Int) ∧
      c = (((sfs_read_copies ino size offset).map ReadCopy.next_read).sum : Nat) ∧
      out = (sfs_read_copies ino size offset).foldl (apply_copy st.sb st.disk ino)
        (memset0 buf size) ∧
      ∀ x ∈ sfs_read_copies ino size offset,
        x.byte_offset + x.next_read ≤ BLOCK_SIZE ∧ x.cursor + x.next_read ≤ size ∧
        x.ptr_offset < inode.blocks_number ino := by
  obtain ⟨h1, h2, h3⟩ := sfs_read_spec st path buf size offset ino hres hb
  refine ⟨_, _, h1, ?_, ?_, rfl, rfl, h3⟩
  · exact Int.natCast_nonneg _
  · exact_mod_cast h2

/-- C26 on the two-block file of the sample volume, for 1000 bytes at offset
100: two passes, of 412 and of 512 bytes. -/
theorem C26_read_stays_in_bounds_witness :
    resolute_path (sample_volume 2).sb (sample_volume 2).disk (cstr "/f")
        (sample_volume 2).current_dir
      = .ok (some (memcpy zero_block 0 ((sample_volume 2).disk 10) 256 INODE_SIZE)) ∧
    inode.blocks_number (memcpy zero_block 0 ((sample_volume 2).disk 10) 256 INODE_SIZE)
      ≤ MAX_BLOCKS_OF_FILE ∧
    sfs_read_copies (memcpy zero_block 0 ((sample_volume 2).disk 10) 256 INODE_SIZE) 1000 100
      = [⟨0, 100, 0, 412⟩, ⟨1, 0, 412, 512⟩] ∧
    ∃ (c : Int) (out : Bytes),
      sfs_read (sample_volume 2) (cstr "/f") zero_block 1000 100 = .ok (c, out) ∧
      0 ≤ c ∧ c ≤ ((1000 : Nat) : Int) ∧
      c = (((sfs_read_copies (memcpy zero_block 0 ((sample_volume 2).disk 10) 256 INODE_SIZE)
        1000 100).map ReadCopy.next_read).sum : Nat) ∧
      out = (sfs_read_copies (memcpy zero_block 0 ((sample_volume 2).disk 10) 256 INODE_SIZE)
          1000 100).foldl
        (apply_copy (sample_volume 2).sb (sample_volume 2).disk
          (memcpy zero_block 0 ((sample_volume 2).disk 10) 256 INODE_SIZE))
        (memset0 zero_block 1000) ∧
      ∀ x ∈ sfs_read_copies (memcpy zero_block 0 ((sample_volume 2).disk 10) 256 INODE_SIZE)
          1000 100,
        x.byte_offset + x.next_read ≤ BLOCK_SIZE ∧ x.cursor + x.next_read ≤ 1000 ∧
        x.ptr_offset < inode.blocks_number
          (memcpy zero_block 0 ((sample_volume 2).disk 10) 256 INODE_SIZE) :=
  have h1 : resolute_path (sample_volume 2).sb (sample_volume 2).disk (cstr "/f")
        (sample_volume 2).current_dir
      = .ok (some (memcpy zero_block 0 ((sample_volume 2).disk 10) 256 INODE_SIZE)) := by
    rfl
  ⟨h1, by decide, by decide!,
    C26_read_stays_in_bounds (sample_volume 2) (cstr "/f") zero_block 1000 100 _ h1 (by decide)⟩

/-- C27 (the code departs from it): on a file that owns one block,
`sfs_write` of 512 bytes at offset 1024 reads `block_pointers[2]` while
`blocks_number` is 1, and returns 512 with `blocks_number` still 1; at offset
`12 * 512` it reads `block_pointers[12]`, outside the array. -/
theorem C27_write_reads_pointer_beyond_blocks_number :
    sfs_write_derefs (sample_volume 1) (cstr "/f") 512 1024 = .ok [(2, 1)] ∧
    (sfs_write (sample_volume 1) (cstr "/f") (fun _ => 65) 512 1024).map
        (fun w => (w.retstat, w.ino.map inode.blocks_number)) = .ok (512, some 1) ∧
    sfs_write_derefs (sample_volume 1) (cstr "/f") 512 (12 * 512) = .ok [(12, 1)] ∧
    (sfs_write (sample_volume 1) (cstr "/f") (fun _ => 65) 512 (12 * 512)).map
        (fun w => w.retstat) = .error .out_of_bounds := by
  decide!

end SFS
